import Mathlib

/-!
A shallow embedding of `src/rhildraw.py` (jesterKing/rhildraw), an importer
that resolves an LDraw-style brick model into mesh definitions and placed
instances inside a host (Rhino) document.

Modelling conventions:
* Python strings are modelled as `PyStr := List Char` (a string is its
  character sequence); all primitive string operations (`split`, `strip`,
  `startswith`, `endswith`, `removesuffix`, `lower`, `join`, slicing,
  `replace` for one-character patterns) are defined structurally below so
  that every computation is kernel-executable.
* Python floats are modelled as rationals (`ℚ`); `pyFloat` models Python's
  `float(str)` for plain decimal literals (optional sign, digits, one
  optional dot), which covers every numeric literal of the LDraw format.
  A string `pyFloat` rejects corresponds to a `ValueError` being raised.
* An uncaught Python exception is modelled by returning `some err : Option Err`
  together with the state at the moment of the raise; a caught exception is
  modelled at the `try` site, exactly where the source catches it.
* The host document (`sc.doc`) is modelled by `DocState`: its instance
  definition table, its render material table and its placed object table.
* Rhino `Transform` values constructed by this program are always affine
  (the source only ever writes the top three rows of `Transform.Identity`,
  or uses a rotation), so a transform is the 3x4 matrix `RTransform` with an
  implicit bottom row (0,0,0,1); `RTransform.mul` is what Rhino's 4x4
  product computes on such matrices.
* `Transform.Rotation(ToRadians(-90), XAxis, Origin)` has the exact entries
  cos(-90°)=0 and sin(-90°)=-1, so `rhino_orient` is that exact matrix.
* Python's recursion (`load_geomety_from_file`, `load_assembly` calling
  themselves through nested part files) is unbounded; it is embedded with a
  fuel parameter, structurally decreasing at each nesting level, and the
  recursive call is passed to the per-command worker as a function argument
  (`recur`) so that all recursion is structural and kernel-reducible.
  Exhausted fuel is the distinguished abort `Err.outOfFuel`.
* Host-owned mesh algorithms (ComputeNormals/SplitDisjointPieces/Weld/
  UnifyNormals/Append/Compact — §6 external collaborators) are modelled by
  `host_weld_pipeline`; no claim in scope depends on more than the fact that
  it maps a mesh with no vertices and no faces to one with no vertices and
  no faces, so it is modelled as the identity map.
* Python's `pathlib.Path` (on Windows, where the script runs) is modelled as
  its list of components, splitting on both `/` and `\`.
* Python `dict` is modelled as an association list where insertion prepends,
  so a later insert of the same key shadows an earlier one under
  `List.lookup`, matching `dict` update/lookup semantics.
-/

/-! ## Python string primitives over `PyStr := List Char` -/

abbrev PyStr := List Char

/-- Character data of a Lean string literal. -/
def str (s : String) : PyStr := s.data

/-- Python `str.split()` : split on whitespace runs, dropping empty pieces. -/
def pySplitAux : PyStr → PyStr → List PyStr
  | [], acc => if acc.isEmpty then [] else [acc.reverse]
  | c :: rest, acc =>
    if c.isWhitespace then
      if acc.isEmpty then pySplitAux rest [] else acc.reverse :: pySplitAux rest []
    else pySplitAux rest (c :: acc)

/-- Python `str.split()` (no argument: any whitespace, empties dropped). -/
def pySplit (s : PyStr) : List PyStr := pySplitAux s []

/-- Python `str.startswith(p)`. -/
def strStartsWith (s p : PyStr) : Bool := p.isPrefixOf s

/-- Python `str.endswith(p)`. -/
def strEndsWith (s p : PyStr) : Bool := p.reverse.isPrefixOf s.reverse

/-- Python `s[:len(s)-n]`, i.e. dropping `n` characters from the right. -/
def strDropRight (s : PyStr) (n : ℕ) : PyStr := s.take (s.length - n)

/-- Python `str.removesuffix(suf)`. -/
def pyRemovesuffix (s suf : PyStr) : PyStr :=
  if strEndsWith s suf then strDropRight s suf.length else s

/-- Python `str.strip()`. -/
def strTrim (s : PyStr) : PyStr :=
  ((s.dropWhile Char.isWhitespace).reverse.dropWhile Char.isWhitespace).reverse

/-- Python `str.lower()`. -/
def strToLower (s : PyStr) : PyStr := s.map Char.toLower

/-- Python `sep.join(parts)`. -/
def strIntercalate (sep : PyStr) : List PyStr → PyStr
  | [] => []
  | [x] => x
  | x :: xs => x ++ sep ++ strIntercalate sep xs

/-- Python `s.replace(a, b)` for one-character `a`, `b` (the only use in the
source is `part_name.replace('/', '\\')`). -/
def strReplaceChar (s : PyStr) (a b : Char) : PyStr :=
  s.map (fun c => if c = a then b else c)

/-! ## Python number primitives -/

/-- Value of a list of decimal digit characters. -/
def digitsVal (l : List Char) : ℕ :=
  l.foldl (fun acc c => 10 * acc + (c.toNat - '0'.toNat)) 0

/-- Python `float(s)` for plain decimal literals: optional sign, then either
`digits`, `digits.`, `digits.digits`, or `.digits`.  Returns `none` when
Python raises `ValueError` (any other character, empty string, bare sign or
bare dot). -/
def pyFloat (s : PyStr) : Option ℚ :=
  let (sgn, cs) : ℚ × PyStr :=
    match s with
    | '-' :: t => (-1, t)
    | '+' :: t => (1, t)
    | t => (1, t)
  let ip := cs.takeWhile Char.isDigit
  let rest := cs.dropWhile Char.isDigit
  match rest with
  | [] => if ip.isEmpty then none else some (sgn * digitsVal ip)
  | '.' :: fp =>
    if fp.all Char.isDigit && !(ip.isEmpty && fp.isEmpty) then
      some (sgn * ((digitsVal ip : ℚ) + (digitsVal fp : ℚ) / 10 ^ fp.length))
    else none
  | _ => none

/-- Value of a hex digit character, if it is one. -/
def hexDigitVal (c : Char) : Option ℕ :=
  if '0' ≤ c ∧ c ≤ '9' then some (c.toNat - '0'.toNat)
  else if 'a' ≤ c ∧ c ≤ 'f' then some (c.toNat - 'a'.toNat + 10)
  else if 'A' ≤ c ∧ c ≤ 'F' then some (c.toNat - 'A'.toNat + 10)
  else none

/-- Python `int(s, 16)` on a slice: nonempty and all hex digits, else
`ValueError` (`none`). -/
def hexVal (l : List Char) : Option ℕ :=
  if l.isEmpty then none
  else l.foldl (fun acc c => do return 16 * (← acc) + (← hexDigitVal c)) (some 0)

/-! ## Paths (Windows `pathlib.Path`, modelled as component lists) -/

/-- Split a path string into components (on Windows `/` and `\` both
separate; empty components are dropped, as pathlib does). -/
def pathComponents (s : PyStr) : List PyStr :=
  (List.splitOnP (fun c => c = '/' ∨ c = '\\') s).filter (fun t => !t.isEmpty)

/-- `Path.__truediv__`: join a further (possibly multi-component, possibly
empty) part onto a path. -/
def pathJoin (comps : List PyStr) (s : PyStr) : List PyStr :=
  comps ++ pathComponents s

/-- `Path(s).name` (last component; `""` for an empty path). -/
def pathBaseName (s : PyStr) : PyStr :=
  (pathComponents s).getLastD []

/-- `PurePath.suffix`: the final dot-suffix of a name; `""` when the last dot
is leading or trailing or absent (pathlib's `0 < i < len(name)-1` rule on
`i = name.rfind('.')`). -/
def pySuffix (name : PyStr) : PyStr :=
  let i := name.length - 1 - (name.reverse.takeWhile (fun c => c ≠ '.')).length
  if name.contains '.' ∧ 0 < i ∧ i + 1 < name.length then name.drop i
  else []

/-! ## `class LDrawFile` -/

/-- A part file; `path` is the component list of its `pathlib.Path`, the
remaining identity fields are those computed in `LDrawFile.__init__`. -/
structure LDrawFile where
  path : List PyStr
  name : PyStr
  pname : PyStr
  suffix : PyStr
  commands : List PyStr
  deriving Repr, DecidableEq

/-- `LDrawFile.__init__(path, data)`: `name = path.name`,
`suffix = path.suffix`, `pname = f"{path.parent.name}\\{name}"`. -/
def mkLDrawFile (comps : List PyStr) (data : List PyStr) : LDrawFile :=
  let name := comps.getLastD []
  { path := comps
    name := name
    pname := (comps.dropLast).getLastD [] ++ ['\\'] ++ name
    suffix := pySuffix name
    commands := data }

/-- `LDrawFile.get_commands`: in the source an empty `commands` list triggers
a lazy one-time read from disk (stripping lines and dropping empty ones); in
this embedding every file carries its stripped command lines up front
(virtual files do in the source as well), so this returns them. -/
def get_commands (f : LDrawFile) : List PyStr :=
  f.commands

/-- `LDrawFile.contains_poly_commands`: some command's first character is one
of `2`, `3`, `4`, `5`. -/
def contains_poly_commands (f : LDrawFile) : Bool :=
  (get_commands f).any fun cmd =>
    match cmd with
    | [] => false
    | c :: _ => c = '2' ∨ c = '3' ∨ c = '4' ∨ c = '5'

/-! ## Transforms -/

/-- An affine Rhino `Transform`: the top 3x4 block (`M00..M23`) with the
implicit bottom row (0,0,0,1).  Every transform this program builds has that
shape (`LDrawXform.__init__` writes only the top three rows of
`Transform.Identity`; `rhino_orient` is a rotation). -/
structure RTransform where
  M00 : ℚ
  M01 : ℚ
  M02 : ℚ
  M03 : ℚ
  M10 : ℚ
  M11 : ℚ
  M12 : ℚ
  M13 : ℚ
  M20 : ℚ
  M21 : ℚ
  M22 : ℚ
  M23 : ℚ
  deriving Repr, DecidableEq

/-- `Transform.Identity`. -/
def RTransform.identity : RTransform :=
  ⟨1, 0, 0, 0, 0, 1, 0, 0, 0, 0, 1, 0⟩

/-- The Rhino 4x4 matrix product restricted to affine matrices (both bottom
rows are (0,0,0,1), hence so is the product's). -/
def RTransform.mul (A B : RTransform) : RTransform where
  M00 := A.M00 * B.M00 + A.M01 * B.M10 + A.M02 * B.M20
  M01 := A.M00 * B.M01 + A.M01 * B.M11 + A.M02 * B.M21
  M02 := A.M00 * B.M02 + A.M01 * B.M12 + A.M02 * B.M22
  M03 := A.M00 * B.M03 + A.M01 * B.M13 + A.M02 * B.M23 + A.M03
  M10 := A.M10 * B.M00 + A.M11 * B.M10 + A.M12 * B.M20
  M11 := A.M10 * B.M01 + A.M11 * B.M11 + A.M12 * B.M21
  M12 := A.M10 * B.M02 + A.M11 * B.M12 + A.M12 * B.M22
  M13 := A.M10 * B.M03 + A.M11 * B.M13 + A.M12 * B.M23 + A.M13
  M20 := A.M20 * B.M00 + A.M21 * B.M10 + A.M22 * B.M20
  M21 := A.M20 * B.M01 + A.M21 * B.M11 + A.M22 * B.M21
  M22 := A.M20 * B.M02 + A.M21 * B.M12 + A.M22 * B.M22
  M23 := A.M20 * B.M03 + A.M21 * B.M13 + A.M22 * B.M23 + A.M23

/-- `Point3f.Transform(xform)` for an affine transform: apply the 3x4 block
to (u, v, w, 1). -/
def RTransform.transformPoint (T : RTransform) (u v w : ℚ) : ℚ × ℚ × ℚ :=
  (T.M00 * u + T.M01 * v + T.M02 * w + T.M03,
   T.M10 * u + T.M11 * v + T.M12 * w + T.M13,
   T.M20 * u + T.M21 * v + T.M22 * w + T.M23)

/-- `class LDrawXform`: wraps the transform parsed from a reference command. -/
structure LDrawXform where
  xform : RTransform
  deriving Repr, DecidableEq

/-- The list comprehension `[float(f) for f in d]`: all tokens parse, or the
whole comprehension raises `ValueError` (`none`). -/
def pyFloatList : List PyStr → Option (List ℚ)
  | [] => some []
  | t :: rest =>
    match pyFloat t, pyFloatList rest with
    | some v, some vs => some (v :: vs)
    | _, _ => none

/-- Float-parse the 12 transform tokens `data.split()[2:14]`; `none` models
the caught exception (too few tokens → `IndexError` on `d[11]`, a bad token →
`ValueError` in the comprehension). -/
def parse12 (ts : List PyStr) : Option (List ℚ) :=
  match pyFloatList ts with
  | some l => if l.length = 12 then some l else none
  | none => none

/-- `LDrawXform.__init__(data)`: strip; unless empty, parse
`data.split()[2:14]` into `x y z a b c d e f g h i` and write them into a
copy of `Transform.Identity` (rows as in the source); any exception — or the
empty string — leaves `Transform.Identity`. -/
def LDrawXform.init (data : PyStr) : LDrawXform :=
  let data := strTrim data
  if data.length > 0 then
    match parse12 (((pySplit data).drop 2).take 12) with
    | some [x, y, z, a, b, c, d, e, f, g, h, i] =>
      ⟨⟨a, b, c, x, d, e, f, y, g, h, i, z⟩⟩
    | _ => ⟨RTransform.identity⟩
  else ⟨RTransform.identity⟩

/-- `rhino_orient`: `LDrawXform("")` with its transform replaced by
`Transform.Rotation(ToRadians(-90.0), Vector3f.XAxis, Point3f.Origin)`,
whose entries are exactly cos(-90°)=0, sin(-90°)=-1. -/
def rhino_orient : LDrawXform :=
  ⟨⟨1, 0, 0, 0, 0, 0, 1, 0, 0, -1, 0, 0⟩⟩

/-- `id_xform = LDrawXform("")`. -/
def id_xform : LDrawXform := LDrawXform.init []

/-- `apply_transforms(v, xforms)`: apply each transform to the point in
sequence order.  `transform_point(*v)` takes exactly three positional
arguments; a `v` of any other length raises `TypeError` (`none`). -/
def apply_transforms : List ℚ → List LDrawXform → Option (List ℚ)
  | v, [] => some v
  | v, x :: rest =>
    match v with
    | [u, vv, w] =>
      let p := x.xform.transformPoint u vv w
      apply_transforms [p.1, p.2.1, p.2.2] rest
    | _ => none

/-- `collate_transforms(xforms)`: left fold of the matrix product starting
from `Transform.Identity`. -/
def collate_transforms (xforms : List LDrawXform) : RTransform :=
  xforms.foldl (fun acc x => acc.mul x.xform) RTransform.identity

/-! ## Names, meshes, errors -/

/-- `clean_name(part_name)`: chained `removesuffix` for `.dat`, `.DAT`,
`.ldr`, `.LDR`, in that order. -/
def clean_name (part_name : PyStr) : PyStr :=
  pyRemovesuffix (pyRemovesuffix (pyRemovesuffix (pyRemovesuffix
    part_name (str ".dat")) (str ".DAT")) (str ".ldr")) (str ".LDR")

/-- The mesh being accumulated: its `Vertices` and `Faces` tables. -/
structure MeshState where
  vertices : List (ℚ × ℚ × ℚ)
  faces : List (List ℕ)
  deriving Repr, DecidableEq

/-- `Mesh()`. -/
def mesh0 : MeshState := ⟨[], []⟩

/-- The uncaught Python exceptions this program can raise. -/
inductive Err where
  | partNotFound (name : PyStr)
  | keyError (key : PyStr)
  | typeError
  | valueError
  | indexError
  | outOfFuel
  deriving Repr, DecidableEq

/-- The successive slices `d[i:i+3]` for `i in range(0, 3*k, 3)` of the
parsed float list (`d[i:i+3] = d.drop i |>.take 3`, computed sequentially). -/
def slices3 (ds : List ℚ) : ℕ → List (List ℚ)
  | 0 => []
  | k + 1 => ds.take 3 :: slices3 (ds.drop 3) k

/-- The vertex loop of `add_poly`: for each slice, `apply_transforms` then
`m.Vertices.Add(*V)`, bumping the global `vertidx`.  A slice without exactly
three numbers makes `transform_point` (or `Vertices.Add`) raise `TypeError`,
which `add_poly` does not catch. -/
def add_poly_verts :
    List (List ℚ) → List LDrawXform → MeshState → ℕ → (MeshState × ℕ) × Option Err
  | [], _, m, n => ((m, n), none)
  | c :: rest, xforms, m, n =>
    match apply_transforms c xforms with
    | none => ((m, n), some .typeError)
    | some V =>
      match V with
      | [x, y, z] =>
        add_poly_verts rest xforms { m with vertices := m.vertices ++ [(x, y, z)] } (n + 1)
      | _ => ((m, n), some .typeError)

/-- `add_poly(m, cmd, xforms)` with the global `vertidx` threaded as `n`:
`vertices = int(cmd[0])`, slice `cmd.split()[2 : 2 + 3*vertices]`,
float-parse it — a `ValueError` here is caught and the command is skipped —
then add the transformed vertices and append one 4- or 3-index face
referencing the last `vertices` values of the counter. -/
def add_poly (m : MeshState) (n : ℕ) (cmd : PyStr) (xforms : List LDrawXform) :
    (MeshState × ℕ) × Option Err :=
  match cmd with
  | [] => ((m, n), some .indexError)
  | c :: _ =>
    if c.isDigit then
      let vertices := c.toNat - '0'.toNat
      let d := ((pySplit cmd).drop 2).take (vertices * 3)
      match pyFloatList d with
      | none => ((m, n), none)
      | some ds =>
        match add_poly_verts (slices3 ds vertices) xforms m n with
        | (res, some e) => (res, some e)
        | ((m', n'), none) =>
          if vertices = 4 then
            (({ m' with faces := m'.faces ++ [[n' - 4, n' - 3, n' - 2, n' - 1]] }, n'), none)
          else if vertices = 3 then
            (({ m' with faces := m'.faces ++ [[n' - 3, n' - 2, n' - 1]] }, n'), none)
          else ((m', n'), none)
    else ((m, n), some .valueError)

/-! ## Host document state, materials, global state -/

/-- A physically-based render material registered in `sc.doc.RenderMaterials`
(only the parameters the script sets). -/
structure RenderMat where
  name : PyStr
  basecolor : ℚ × ℚ × ℚ × ℚ
  opacity : ℚ
  metallic : ℚ
  roughness : ℚ
  deriving Repr, DecidableEq

/-- One `sc.doc.Objects.AddInstanceObject(idef.Index, xform, obattr)` call. -/
structure PlacedObject where
  idefIndex : ℕ
  xform : RTransform
  attrName : PyStr
  renderMaterial : Option PyStr
  deriving Repr, DecidableEq

/-- The host document: instance definition table (name and mesh, in creation
order — `InstanceDefinition.Index` is the table position), render material
table, and placed objects. -/
structure DocState where
  idefTable : List (PyStr × MeshState)
  renderMaterials : List RenderMat
  objects : List PlacedObject
  deriving Repr, DecidableEq

/-- `class LDrawMaterial`: parsed color properties, display name
(`props["COLOUR"]`), and the lazily created render-material handle
(modelled by the material's name). -/
structure LDrawMaterial where
  properties : List (PyStr × PyStr)
  name : PyStr
  render_material : Option PyStr
  deriving Repr, DecidableEq

/-- Observable events: `print(...)` calls plus the two semantic actions the
claims count — running the geometry build for a part (entering
`load_geomety_from_file` from `add_geometry`) and creating a definition
(`sc.doc.InstanceDefinitions.Add`). -/
inductive Event where
  | print (msg : PyStr)
  | buildGeometry (name : PyStr)
  | createDef (name : PyStr)
  deriving Repr, DecidableEq

/-- The script's global mutable state: the `vfiles`, `idefs` and `materials`
dictionaries, the global `vertidx`, the host document, and the event log. -/
structure GState where
  vfiles : List (PyStr × LDrawFile)
  idefs : List (PyStr × PyStr)
  materials : List (PyStr × LDrawMaterial)
  vertidx : ℕ
  doc : DocState
  log : List Event
  deriving Repr, DecidableEq

/-- Python `dict` insertion (prepend; `List.lookup` then sees the newest
binding for a key, matching `dict` overwrite semantics). -/
def dictInsert {α : Type} (k : PyStr) (v : α) (m : List (PyStr × α)) :
    List (PyStr × α) :=
  (k, v) :: m

/-- `get_ldraw_file(part_name)`: normalize `/` to `\`, look up `vfiles`,
raise `Exception(f"Part file not found: {part_name}")` when absent. -/
def get_ldraw_file (vf : List (PyStr × LDrawFile)) (part_name : PyStr) :
    Except Err LDrawFile :=
  let part_name := strReplaceChar part_name '/' '\\'
  match vf.lookup part_name with
  | some f => .ok f
  | none => .error (.partNotFound part_name)

/-- `LDrawMaterial._get_color4f(colstr)`: drop the leading `#`, parse three
2-hex-digit slices, divide by 255; alpha 1.0.  `none` models the uncaught
`ValueError` of `int(_, 16)` on a bad or short slice. -/
def get_color4f (colstr : PyStr) : Option (ℚ × ℚ × ℚ × ℚ) :=
  let cs := colstr.drop 1
  match hexVal (cs.take 2), hexVal ((cs.drop 2).take 2), hexVal ((cs.drop 4).take 2) with
  | some r, some g, some b => some ((r : ℚ) / 255, (g : ℚ) / 255, (b : ℚ) / 255, 1)
  | _, _, _ => none

/-- `LDrawMaterial.create_render_material`: scan `sc.doc.RenderMaterials` for
an existing material of the same name (reuse it); otherwise build a new PBR
material from `VALUE` / `ALPHA` / `METAL` / `CHROME` / `MATTE_METALLIC`,
register it, and remember the handle. -/
def create_render_material (doc : DocState) (mat : LDrawMaterial) :
    (DocState × LDrawMaterial) × Option Err :=
  if doc.renderMaterials.any (fun rm => rm.name == mat.name) then
    ((doc, { mat with render_material := some mat.name }), none)
  else
    match mat.properties.lookup (str "VALUE") with
    | none => ((doc, mat), some (.keyError (str "VALUE")))
    | some v =>
      match get_color4f v with
      | none => ((doc, mat), some .valueError)
      | some basecolor =>
        let withAlpha : Option (ℚ × ℚ) :=
          match mat.properties.lookup (str "ALPHA") with
          | none => some (1, 1/5)
          | some astr =>
            match pyFloat astr with
            | none => none
            | some av => some (1 - av / 255, 3/100)
        match withAlpha with
        | none => ((doc, mat), some .valueError)
        | some (opacity, rough1) =>
          let metal1 : ℚ × ℚ :=
            if mat.properties.lookup (str "METAL") ≠ none ∨
               mat.properties.lookup (str "CHROME") ≠ none then (1, 3/100)
            else (0, rough1)
          let metal2 : ℚ × ℚ :=
            if mat.properties.lookup (str "MATTE_METALLIC") ≠ none then (1, 3/10)
            else metal1
          let rm : RenderMat :=
            { name := mat.name
              basecolor := basecolor
              opacity := opacity
              metallic := metal2.1
              roughness := metal2.2 }
          (({ doc with renderMaterials := doc.renderMaterials ++ [rm] },
            { mat with render_material := some mat.name }), none)

/-! ## Geometry extraction: `load_geomety_from_file` -/

/-- One command of `load_geomety_from_file`'s loop: a `1`-reference resolves
the part — a lookup failure is caught, reported and skipped — and recurses
through `recur` with the reference transform prepended; a `3`/`4` polygon
goes to `add_poly`; anything else is ignored. -/
def geomety_cmd
    (recur : LDrawFile → MeshState → ℕ → List LDrawXform → List Event →
      (MeshState × ℕ × List Event) × Option Err)
    (vf : List (PyStr × LDrawFile)) (cmd : PyStr) (m : MeshState) (n : ℕ)
    (xforms : List LDrawXform) (log : List Event) :
    (MeshState × ℕ × List Event) × Option Err :=
  if strStartsWith cmd (str "1") then
    let d := pySplit cmd
    let xform := LDrawXform.init cmd
    let prt := strIntercalate (str " ") (d.drop 14)
    let xforms2 := xform :: xforms
    match get_ldraw_file vf prt with
    | .error _ =>
      ((m, n, log ++ [Event.print (str "\tERR: Failed getting part " ++ prt ++ str ", skipping")]), none)
    | .ok part_file => recur part_file m n xforms2 log
  else if strStartsWith cmd (str "3") || strStartsWith cmd (str "4") then
    match add_poly m n cmd xforms with
    | ((m', n'), some e) => ((m', n', log), some e)
    | ((m', n'), none) => ((m', n', log), none)
  else ((m, n, log), none)

/-- The command loop of `load_geomety_from_file`, stopping at the first
uncaught exception. -/
def geomety_cmds
    (recur : LDrawFile → MeshState → ℕ → List LDrawXform → List Event →
      (MeshState × ℕ × List Event) × Option Err)
    (vf : List (PyStr × LDrawFile)) :
    List PyStr → MeshState → ℕ → List LDrawXform → List Event →
      (MeshState × ℕ × List Event) × Option Err
  | [], m, n, _, log => ((m, n, log), none)
  | cmd :: rest, m, n, xforms, log =>
    match geomety_cmd recur vf cmd m n xforms log with
    | (r, some e) => (r, some e)
    | ((m', n', log'), none) => geomety_cmds recur vf rest m' n' xforms log'

/-- `load_geomety_from_file(part, m, xforms)` (the global `vertidx` threaded
as `n`, prints collected in `log`), with structural fuel for Python's
unbounded recursion into referenced parts. -/
def load_geomety_from_file :
    ℕ → List (PyStr × LDrawFile) → LDrawFile → MeshState → ℕ →
      List LDrawXform → List Event → (MeshState × ℕ × List Event) × Option Err
  | 0, _, _, m, n, _, log => ((m, n, log), some .outOfFuel)
  | fuel + 1, vf, part, m, n, xforms, log =>
    geomety_cmds (load_geomety_from_file fuel vf) vf (get_commands part) m n xforms log

/-! ## `add_geometry` and the definition cache -/

/-- `sc.doc.InstanceDefinitions.Find(name)`. -/
def idefFind (doc : DocState) (name : PyStr) : Option MeshState :=
  doc.idefTable.lookup name

/-- The host mesh pipeline of `add_geometry` (ComputeNormals, Compact,
SplitDisjointPieces, per-piece Weld(60°)/UnifyNormals, Append, Weld(60°),
Compact).  Modelled from the spec: these operations are host-owned (§6);
the claims in scope depend only on the empty mesh staying empty, so the
pipeline is modelled as the identity map. -/
def host_weld_pipeline (m : MeshState) : MeshState := m

/-- `add_geometry(part_name)`: reset the global `vertidx`; if the host
already has a definition of the cleaned name, print and return (no-op
success); otherwise fetch the part file (an uncaught lookup failure!), build
the flattened mesh with `load_geomety_from_file` starting from `[id_xform]`,
run the host weld pipeline, and register the definition unless the result
has no vertices or no faces. -/
def add_geometry (fuel : ℕ) (part_name : PyStr) (st : GState) :
    GState × Option Err :=
  let st := { st with vertidx := 0 }
  let name := clean_name part_name
  match idefFind st.doc name with
  | some _ =>
    ({ st with log := st.log ++
        [Event.print (str "\tSkipping " ++ part_name ++ str ", instance already created")] }, none)
  | none =>
    match get_ldraw_file st.vfiles part_name with
    | .error e => (st, some e)
    | .ok ldraw_file =>
      let st := { st with log := st.log ++ [Event.buildGeometry name] }
      match load_geomety_from_file fuel st.vfiles ldraw_file mesh0 st.vertidx
          [id_xform] st.log with
      | ((_, n', log'), some e) => ({ st with vertidx := n', log := log' }, some e)
      | ((tmesh, n', log'), none) =>
        let st := { st with vertidx := n', log := log' }
        let mesh := host_weld_pipeline tmesh
        if 0 < mesh.vertices.length ∧ 0 < mesh.faces.length then
          ({ st with
              doc := { st.doc with idefTable := st.doc.idefTable ++ [(name, mesh)] }
              log := st.log ++ [Event.createDef name] }, none)
        else (st, none)

/-- `update_idefs_dictionary(part_name)`: re-find the cleaned name in the
host and cache the handle in the global `idefs` dictionary. -/
def update_idefs_dictionary (part_name : PyStr) (st : GState) :
    GState × Option PyStr :=
  let idef_part_name := clean_name part_name
  match idefFind st.doc idef_part_name with
  | some _ =>
    ({ st with idefs := dictInsert idef_part_name idef_part_name st.idefs },
     some idef_part_name)
  | none => (st, none)

/-- `get_part_idef(prt)`: look the cleaned base name (`Path(prt).name`) up
in the global `idefs` cache. -/
def get_part_idef (prt : PyStr) (st : GState) : Option PyStr :=
  let pname := clean_name (pathBaseName prt)
  st.idefs.lookup pname

/-- `sc.doc.Objects.AddInstanceObject(idef.Index, xform, obattr)`. -/
def placeInstance (st : GState) (idefName : PyStr) (xform : RTransform)
    (attrName : PyStr) (rm : Option PyStr) : GState :=
  { st with doc := { st.doc with objects := st.doc.objects ++
      [{ idefIndex := (st.doc.idefTable.map Prod.fst).indexOf idefName
         xform := xform
         attrName := attrName
         renderMaterial := rm }] } }

/-! ## Assembly walking: `load_assembly` -/

/-- One `1`-reference command of `load_assembly`'s loop.  Resolve the color
to a material (an unknown code is an uncaught `KeyError`), create/reuse its
render material, parse the transform and referenced name; then: a `.ldr`
reference is fetched (an uncaught lookup failure!) and either built-and-
instanced (if it contains polygon commands) or recursed into through `recur`
(if not); a plain reference is instanced from the `idefs` cache, building
through `add_geometry` on a miss.  Non-`1` commands are ignored. -/
def assembly_cmd
    (recur : LDrawFile → List LDrawXform → GState → GState × Option Err)
    (fuel : ℕ) (cmd : PyStr) (xforms : List LDrawXform) (st : GState) :
    GState × Option Err :=
  if strStartsWith cmd (str "1") then
    let d := pySplit cmd
    match d[1]? with
    | none => (st, some .indexError)
    | some color_code =>
      match st.materials.lookup color_code with
      | none => (st, some (.keyError color_code))
      | some mat =>
        match create_render_material st.doc mat with
        | ((doc', _), some e) => ({ st with doc := doc' }, some e)
        | ((doc', mat'), none) =>
          let st := { st with doc := doc', materials := dictInsert color_code mat' st.materials }
          let rm := mat'.render_material
          let xform := LDrawXform.init cmd
          let prt := strIntercalate (str " ") (d.drop 14)
          let xforms2 := xforms ++ [xform]
          let attrName := clean_name prt
          if strEndsWith (strToLower prt) (str ".ldr") then
            match get_ldraw_file st.vfiles prt with
            | .error e => (st, some e)
            | .ok ldr_file =>
              if contains_poly_commands ldr_file then
                match add_geometry fuel prt st with
                | (st', some e) => (st', some e)
                | (st', none) =>
                  match update_idefs_dictionary prt st' with
                  | (st2, some idef) =>
                    (placeInstance st2 idef (collate_transforms xforms2) attrName rm, none)
                  | (st2, none) =>
                    ({ st2 with log := st2.log ++
                        [Event.print (str "Couldn" ++ [Char.ofNat 39] ++ str "t add part " ++ prt)] },
                     none)
              else recur ldr_file xforms2 st
          else
            let idef? := get_part_idef prt st
            let xformC := collate_transforms xforms2
            match idef? with
            | some idef => (placeInstance st idef xformC attrName rm, none)
            | none =>
              match add_geometry fuel prt st with
              | (st', some e) => (st', some e)
              | (st', none) =>
                match update_idefs_dictionary prt st' with
                | (st2, some idef) => (placeInstance st2 idef xformC attrName rm, none)
                | (st2, none) =>
                  ({ st2 with log := st2.log ++
                      [Event.print (str "Failed to add part " ++ prt)] }, none)
  else (st, none)

/-- The command loop of `load_assembly`, stopping at the first uncaught
exception.  (The source's `refresh(zoom_extents)` per command is a pure
viewport redraw and has no modelled state.) -/
def assembly_cmds
    (recur : LDrawFile → List LDrawXform → GState → GState × Option Err)
    (fuel : ℕ) :
    List PyStr → List LDrawXform → GState → GState × Option Err
  | [], _, st => (st, none)
  | cmd :: rest, xforms, st =>
    match assembly_cmd recur fuel cmd xforms st with
    | (st', some e) => (st', some e)
    | (st', none) => assembly_cmds recur fuel rest xforms st'

/-- `load_assembly(part, xforms)`, with structural fuel for Python's
unbounded recursion into nested sub-assemblies. -/
def load_assembly : ℕ → LDrawFile → List LDrawXform → GState → GState × Option Err
  | 0, _, _, st => (st, some .outOfFuel)
  | fuel + 1, part, xforms, st =>
    assembly_cmds (load_assembly fuel) fuel
      ((get_commands part).filter (fun l => !l.isEmpty)) xforms st

/-! ## `load_model`: the multi-part-document splitter -/

/-- The `LDrawFile` synthesized by `add_virtual_file` at
`model.parent / 'virtual' / filename`. -/
def virtual_file_for (modelPath : List PyStr) (filename : PyStr)
    (data : List PyStr) : LDrawFile :=
  mkLDrawFile (pathJoin (pathJoin modelPath.dropLast (str "virtual")) filename) data

/-- `add_virtual_file(model, filename, data)`: synthesize an `LDrawFile` at
`model.parent / 'virtual' / filename` and index it under its bare name and
its parent-qualified name. -/
def add_virtual_file (modelPath : List PyStr) (filename : PyStr)
    (data : List PyStr) (vf : List (PyStr × LDrawFile)) :
    List (PyStr × LDrawFile) :=
  let virtual_file := virtual_file_for modelPath filename data
  dictInsert virtual_file.pname virtual_file (dictInsert virtual_file.name virtual_file vf)

/-- The loop state of `load_model`'s splitter: current sub-file name,
accumulated lines, the first marker's name, and the `vfiles` dictionary. -/
structure SplitSt where
  cur_file : PyStr
  file_data : List PyStr
  first_file : PyStr
  vf : List (PyStr × LDrawFile)

/-- One line of `load_model`'s splitter loop: a `0 FILE ` marker flushes the
previous virtual file (unless it is the leading prose before any marker),
records the first marker's name, and starts a new file whose first command
is the marker line itself; any other line is appended. -/
def mpd_step (modelPath : List PyStr) (s : SplitSt) (l : PyStr) : SplitSt :=
  if strStartsWith l (str "0 FILE ") then
    let vf1 := if s.cur_file ≠ [] then add_virtual_file modelPath s.cur_file s.file_data s.vf
               else s.vf
    let ff := if s.cur_file = [] then l.drop 7 else s.first_file
    { cur_file := l.drop 7, file_data := [l], first_file := ff, vf := vf1 }
  else { s with file_data := s.file_data ++ [l] }

/-- The splitting phase of `load_model`: only a root whose suffix lowers to
`.mpd` is split; the trailing virtual file is flushed after the loop.
Returns the updated `vfiles` and the `first_file` entry-point name (which
stays `""` for a non-`.mpd` root). -/
def mpd_split (model : LDrawFile) (vf : List (PyStr × LDrawFile)) :
    List (PyStr × LDrawFile) × PyStr :=
  if strToLower model.suffix = str ".mpd" then
    let s := (get_commands model).foldl (mpd_step model.path) ⟨[], [], [], vf⟩
    (add_virtual_file model.path s.cur_file s.file_data s.vf, s.first_file)
  else (vf, [])

/-- `load_model(model)`: split a multi-part document into virtual files,
then look up the first marker's name and walk it as the top-level assembly
under the scene-orientation transform. -/
def load_model (fuel : ℕ) (model : LDrawFile) (st : GState) :
    GState × Option Err :=
  let (vf', first_file) := mpd_split model st.vfiles
  let st := { st with vfiles := vf' }
  match get_ldraw_file st.vfiles first_file with
  | .error e => (st, some e)
  | .ok start_part => load_assembly fuel start_part [rhino_orient] st

/-! ## `load_colors` -/

/-- Store consecutive key/value token pairs into the properties dictionary
(`properties[cmd_split[i]] = cmd_split[i+1]`; a later duplicate of a key
overwrites an earlier one). -/
def color_pairs : List PyStr → List (PyStr × PyStr) → List (PyStr × PyStr)
  | k :: v :: rest, acc => color_pairs rest (dictInsert k v acc)
  | _, acc => acc

/-- The key/value pairing of `load_colors`: pad an odd token list with the
placeholder `'dummy'`, then store consecutive pairs. -/
def parse_color_properties (tokens : List PyStr) : List (PyStr × PyStr) :=
  let tokens := if tokens.length % 2 = 1 then tokens ++ [str "dummy"] else tokens
  color_pairs tokens []

/-- The line loop of `load_colors`: each `0 !COLOUR ` line has its `0 !`
prefix stripped and is tokenized into properties; `LDrawMaterial(properties)`
reads `properties["COLOUR"]` and registration reads `properties["CODE"]` —
either key missing is an uncaught `KeyError` that aborts the whole load. -/
def color_cmds : List PyStr → GState → GState × Option Err
  | [], st => ({ st with log := st.log ++ [Event.print (str "Colors read")] }, none)
  | cmd :: rest, st =>
    if strStartsWith cmd (str "0 !COLOUR ") then
      let properties := parse_color_properties (pySplit (cmd.drop 3))
      match properties.lookup (str "COLOUR") with
      | none => (st, some (.keyError (str "COLOUR")))
      | some nm =>
        match properties.lookup (str "CODE") with
        | none => (st, some (.keyError (str "CODE")))
        | some code =>
          let ldraw_material : LDrawMaterial :=
            { properties := properties, name := nm, render_material := none }
          color_cmds rest
            { st with materials := dictInsert code ldraw_material st.materials }
    else color_cmds rest st

/-- `load_colors()`: read `LDConfig.ldr` from the library index (a missing
color table is a fatal lookup error) and process its lines. -/
def load_colors (st : GState) : GState × Option Err :=
  match get_ldraw_file st.vfiles (str "LDConfig.ldr") with
  | .error e => (st, some e)
  | .ok colorldr => color_cmds (get_commands colorldr) st

/-! ## Sanity checks of the embedding on concrete inputs -/

example : pySplit (str "1 16  0 0") = [str "1", str "16", str "0", str "0"] := by decide
example : clean_name (str "3001.dat") = str "3001" := by decide
example : clean_name (str "3001.Dat") = str "3001.Dat" := by decide
example : pySuffix (str "model.mpd") = str ".mpd" := by decide
example : pySuffix (str "model") = [] := by decide
example : pySuffix (str ".hidden") = [] := by decide
example : strToLower (str "A.LDR") = str "a.ldr" := by decide
example : (add_poly mesh0 0 (str "4 16 0 0 0 1 0 0 1 1 0 0 1 0") [id_xform]).1.1.faces
    = [[0, 1, 2, 3]] := by decide
example : (add_poly mesh0 0 (str "3 16 0 0 0 1 0") [id_xform]).2 = some .typeError := by decide
example : (add_poly mesh0 0 (str "3 16 0 0 xx 1 0 0 1 1 0") [id_xform]).2 = none := by decide
example : (LDrawXform.init (str "1 16 a b c 1 0 0 0 1 0 0 0 1 part.dat")).xform
    = RTransform.identity := by decide
example : hexVal (str "FF") = some 255 := by decide

/-! ## Algebraic lemmas about transforms -/

theorem RTransform.mul_identity (A : RTransform) : A.mul RTransform.identity = A := by
  cases A
  simp [RTransform.mul, RTransform.identity]

theorem RTransform.identity_mul (A : RTransform) : RTransform.identity.mul A = A := by
  cases A
  simp [RTransform.mul, RTransform.identity]

theorem id_xform_xform : id_xform.xform = RTransform.identity := rfl

/-- C9: Transform composition folds left to right from identity: composing a
sequence of N identity transforms (for every N) equals the identity
transform, and composing the two-element sequence [T, identity] equals T for
every transform T. -/
theorem collate_transforms_identity_laws :
    (∀ n : ℕ, collate_transforms (List.replicate n id_xform) = RTransform.identity) ∧
    (∀ T : LDrawXform, collate_transforms [T, id_xform] = T.xform) := by
  constructor
  · intro n
    induction n with
    | zero => rfl
    | succ k ih =>
      simpa [collate_transforms, List.replicate_succ, id_xform_xform,
        RTransform.mul_identity] using ih
  · intro T
    simp [collate_transforms, id_xform_xform, RTransform.mul_identity,
      RTransform.identity_mul]

/-! ## C8: the definition-cache name key -/

/-- C8 counterexample: the part name "3001.Dat" ends in a casing of ".dat",
yet `clean_name` leaves it untouched (it only strips the exact-case suffixes
".dat"/".DAT"/".ldr"/".LDR"), so the cleaned name is not the name with the
extension removed. -/
theorem clean_name_mixed_case_cex :
    clean_name (str "3001.Dat") = str "3001.Dat" ∧
    clean_name (str "3001.Dat") ≠ str "3001" := by
  decide

/-- C8 (amended): the cache key strips the extension only for the four exact
suffixes ".dat", ".DAT", ".ldr", ".LDR", tried in that order: a name ending
in one of them (whose stripped form does not end in a later-tried suffix)
maps to the name with those four characters removed; mixed-case variants
such as ".Dat" are not stripped. -/
theorem clean_name_exact_suffixes :
    (∀ s : PyStr, strEndsWith s (str ".dat") = true →
      strEndsWith (strDropRight s 4) (str ".DAT") = false →
      strEndsWith (strDropRight s 4) (str ".ldr") = false →
      strEndsWith (strDropRight s 4) (str ".LDR") = false →
      clean_name s = strDropRight s 4) ∧
    (∀ s : PyStr, strEndsWith s (str ".dat") = false →
      strEndsWith s (str ".DAT") = true →
      strEndsWith (strDropRight s 4) (str ".ldr") = false →
      strEndsWith (strDropRight s 4) (str ".LDR") = false →
      clean_name s = strDropRight s 4) ∧
    (∀ s : PyStr, strEndsWith s (str ".dat") = false →
      strEndsWith s (str ".DAT") = false →
      strEndsWith s (str ".ldr") = true →
      strEndsWith (strDropRight s 4) (str ".LDR") = false →
      clean_name s = strDropRight s 4) ∧
    (∀ s : PyStr, strEndsWith s (str ".dat") = false →
      strEndsWith s (str ".DAT") = false →
      strEndsWith s (str ".ldr") = false →
      strEndsWith s (str ".LDR") = true →
      clean_name s = strDropRight s 4) := by
  have l1 : (str ".dat").length = 4 := rfl
  have l2 : (str ".DAT").length = 4 := rfl
  have l3 : (str ".ldr").length = 4 := rfl
  have l4 : (str ".LDR").length = 4 := rfl
  refine ⟨?_, ?_, ?_, ?_⟩ <;> intro s h1 h2 h3 h4 <;>
    simp [clean_name, pyRemovesuffix, h1, h2, h3, h4, l1, l2, l3, l4]

/-- C8 witness: applying the amended statement at concrete names. -/
theorem clean_name_exact_suffixes_witness :
    clean_name (str "3001.dat") = str "3001" ∧
    clean_name (str "PART.LDR") = str "PART" := by
  have h1 := clean_name_exact_suffixes.1 (str "3001.dat")
    (by decide) (by decide) (by decide) (by decide)
  have h2 := clean_name_exact_suffixes.2.2.2 (str "PART.LDR")
    (by decide) (by decide) (by decide) (by decide)
  refine ⟨?_, ?_⟩
  · rw [h1]; decide
  · rw [h2]; decide

/-! ## C10: only .mpd roots can be loaded -/

def c10root : LDrawFile := mkLDrawFile [str "models", str "thing.ldr"] [str "0 hi"]

def c10st : GState :=
  { vfiles := [], idefs := [], materials := [], vertidx := 0
    doc := ⟨[], [], []⟩, log := [] }

/-- C10: for a root model file whose suffix is not ".mpd" (case-
insensitively), `load_model` performs no virtual-file split, leaves the
entry-point name empty, and the library lookup of that empty name raises the
part-not-found error with the state untouched — before any assembly walking
or instance placement. -/
theorem load_model_non_mpd (fuel : ℕ) (model : LDrawFile) (st : GState)
    (hsuf : strToLower model.suffix ≠ str ".mpd")
    (hempty : st.vfiles.lookup ([] : PyStr) = none) :
    mpd_split model st.vfiles = (st.vfiles, []) ∧
    load_model fuel model st = (st, some (Err.partNotFound [])) := by
  have hsplit : mpd_split model st.vfiles = (st.vfiles, ([] : PyStr)) := by
    simp [mpd_split, hsuf]
  refine ⟨hsplit, ?_⟩
  simp [load_model, hsplit, get_ldraw_file, strReplaceChar, hempty]

/-- C10 witness: a concrete `.ldr` root in an empty library. -/
theorem load_model_non_mpd_witness :
    load_model 5 c10root c10st = (c10st, some (Err.partNotFound [])) :=
  (load_model_non_mpd 5 c10root c10st (by decide) (by decide)).2

/-! ## C5: malformed numerics -/

/-- A part file whose first polygon command has a truncated numeric payload
(five numbers instead of nine) followed by a well-formed triangle. -/
def c5file : LDrawFile := mkLDrawFile [str "parts", str "bad.dat"]
  [str "3 16 0 0 0 1 0", str "3 16 0 0 0 1 0 0 1 1 0"]

/-- C5 counterexample: the truncated payload "3 16 0 0 0 1 0" is parsed into
five floats and the second vertex slice has only two components, so
`transform_point(*v)` raises an uncaught TypeError that aborts the whole
geometry walk: the well-formed sibling triangle is never built (no face is
ever added), refuting that a malformed payload only skips its own command. -/
theorem add_poly_truncated_payload_cex :
    (load_geomety_from_file 3 [] c5file mesh0 0 [id_xform] []).2 = some Err.typeError ∧
    (load_geomety_from_file 3 [] c5file mesh0 0 [id_xform] []).1.1.faces = [] := by
  decide

/-- C5 (amended): a reference command whose 12 transform numbers fail to
parse (missing or non-numeric tokens) degrades to the identity transform,
and a polygon command whose sliced numeric payload contains a token that
fails to parse as a float is skipped as a single command (state unchanged,
no abort); a payload that parses but is truncated instead raises an uncaught
TypeError (see the counterexample). -/
theorem malformed_numeric_amended :
    (∀ s : PyStr, parse12 (((pySplit (strTrim s)).drop 2).take 12) = none →
      LDrawXform.init s = ⟨RTransform.identity⟩) ∧
    (∀ (m : MeshState) (n : ℕ) (cmd : PyStr) (xforms : List LDrawXform)
      (c : Char) (cs : PyStr), cmd = c :: cs → c.isDigit = true →
      pyFloatList (((pySplit cmd).drop 2).take ((c.toNat - '0'.toNat) * 3)) = none →
      add_poly m n cmd xforms = ((m, n), none)) := by
  constructor
  · intro s h
    simp [LDrawXform.init, h]
  · intro m n cmd xforms c cs hcmd hdig hparse
    subst hcmd
    simp [add_poly, hdig,
      show pyFloatList (((pySplit (c :: cs)).drop 2).take ((c.toNat - 48) * 3)) = none
        from hparse]

/-- C5 witness: a reference line with non-numeric transform tokens yields the
identity transform; a triangle with a non-numeric vertex token is skipped. -/
theorem malformed_numeric_amended_witness :
    LDrawXform.init (str "1 16 a b c 1 0 0 0 1 0 0 0 1 p.dat") = ⟨RTransform.identity⟩ ∧
    add_poly mesh0 0 (str "3 16 0 0 xx 1 0 0 1 1 0") [id_xform] = ((mesh0, 0), none) :=
  ⟨malformed_numeric_amended.1 _ (by decide),
   malformed_numeric_amended.2 mesh0 0 _ [id_xform] '3' (str " 16 0 0 xx 1 0 0 1 1 0")
     rfl (by decide) (by decide)⟩

/-! ## C7: quad and triangle mesh building -/

theorem apply_transforms_three (xforms : List LDrawXform) (a b c : ℚ) :
    ∃ x y z, apply_transforms [a, b, c] xforms = some [x, y, z] := by
  induction xforms generalizing a b c with
  | nil => exact ⟨a, b, c, rfl⟩
  | cons t rest ih => simpa [apply_transforms] using ih _ _ _

theorem pyFloatList_length :
    ∀ {l : List PyStr} {l' : List ℚ}, pyFloatList l = some l' → l'.length = l.length := by
  intro l
  induction l with
  | nil =>
    intro l' h
    simp only [pyFloatList, Option.some.injEq] at h
    simp [← h]
  | cons t rest ih =>
    intro l' h
    simp only [pyFloatList] at h
    rcases hpf : pyFloat t with _ | v <;> rw [hpf] at h
    · simp at h
    · rcases hrest : pyFloatList rest with _ | vs <;> rw [hrest] at h
      · simp at h
      · obtain rfl : l' = v :: vs := (Option.some.inj h).symm
        simp [ih hrest]

theorem slices3_len (k : ℕ) : ∀ ds : List ℚ, (slices3 ds k).length = k := by
  induction k with
  | zero => intro ds; rfl
  | succ j ih => intro ds; simp [slices3, ih]

theorem slices3_length_three (k : ℕ) :
    ∀ ds : List ℚ, ds.length = 3 * k → ∀ ch ∈ slices3 ds k, ch.length = 3 := by
  induction k with
  | zero => intro ds _ ch hch; simp [slices3] at hch
  | succ j ih =>
    intro ds h ch hch
    simp only [slices3, List.mem_cons] at hch
    rcases hch with rfl | hch
    · simp [List.length_take]; omega
    · exact ih (ds.drop 3) (by simp [List.length_drop]; omega) ch hch

theorem add_poly_verts_append (chunks : List (List ℚ)) (xforms : List LDrawXform)
    (m : MeshState) (n : ℕ) (h : ∀ ch ∈ chunks, ch.length = 3) :
    ∃ vs : List (ℚ × ℚ × ℚ), vs.length = chunks.length ∧
      add_poly_verts chunks xforms m n =
        ((⟨m.vertices ++ vs, m.faces⟩, n + chunks.length), none) := by
  induction chunks generalizing m n with
  | nil => exact ⟨[], rfl, by simp [add_poly_verts]⟩
  | cons ch rest ih =>
    obtain ⟨a, b, c, rfl⟩ := List.length_eq_three.mp (h ch (by simp))
    obtain ⟨x, y, z, hxyz⟩ := apply_transforms_three xforms a b c
    obtain ⟨vs, hlen, hrec⟩ := ih { m with vertices := m.vertices ++ [(x, y, z)] } (n + 1)
      (fun ch2 hch2 => h ch2 (by simp [hch2]))
    refine ⟨(x, y, z) :: vs, by simp [hlen], ?_⟩
    simp only [add_poly_verts, hxyz]
    rw [hrec]
    have hn : n + 1 + rest.length = n + (rest.length + 1) := by omega
    simp [List.append_assoc, hn]

/-- Characterization of `add_poly` once the head digit and the float-parse of
the payload are known. -/
theorem add_poly_eq (m : MeshState) (n : ℕ) (c : Char) (cs : PyStr)
    (xforms : List LDrawXform) (hdig : c.isDigit = true) (ds : List ℚ)
    (hds : pyFloatList (((pySplit (c :: cs)).drop 2).take ((c.toNat - '0'.toNat) * 3))
      = some ds) :
    add_poly m n (c :: cs) xforms =
      (match add_poly_verts (slices3 ds (c.toNat - '0'.toNat)) xforms m n with
      | (res, some e) => (res, some e)
      | ((m', n'), none) =>
        if c.toNat - '0'.toNat = 4 then
          (({ m' with faces := m'.faces ++ [[n' - 4, n' - 3, n' - 2, n' - 1]] }, n'), none)
        else if c.toNat - '0'.toNat = 3 then
          (({ m' with faces := m'.faces ++ [[n' - 3, n' - 2, n' - 1]] }, n'), none)
        else ((m', n'), none)) := by
  simp [add_poly, hdig,
    show pyFloatList (((pySplit (c :: cs)).drop 2).take ((c.toNat - 48) * 3)) = some ds
      from hds]

def quad_cmd : PyStr := str "4 16 0 0 0 1 0 0 1 1 0 0 1 0"

def tri_cmd : PyStr := str "3 16 0 0 0 1 0 0 1 1 0"

theorem add_poly_quad_core (m : MeshState) (n : ℕ) (xforms : List LDrawXform) :
    ∃ vs : List (ℚ × ℚ × ℚ), vs.length = 4 ∧
      add_poly m n quad_cmd xforms =
        ((⟨m.vertices ++ vs, m.faces ++ [[n, n + 1, n + 2, n + 3]]⟩, n + 4), none) := by
  obtain ⟨ds, hds⟩ : ∃ ds,
      pyFloatList (((pySplit ('4' :: str " 16 0 0 0 1 0 0 1 1 0 0 1 0")).drop 2).take
        (('4'.toNat - '0'.toNat) * 3)) = some ds := by
    apply Option.isSome_iff_exists.mp
    decide
  have hdl : ds.length = 12 := by
    have h2 := pyFloatList_length hds
    have h3 : ((((pySplit ('4' :: str " 16 0 0 0 1 0 0 1 1 0 0 1 0")).drop 2)).take
        (('4'.toNat - '0'.toNat) * 3)).length = 12 := by decide
    omega
  obtain ⟨vs, hvl, hverts⟩ := add_poly_verts_append (slices3 ds 4) xforms m n
    (slices3_length_three 4 ds (by omega))
  have hq : quad_cmd = '4' :: str " 16 0 0 0 1 0 0 1 1 0 0 1 0" := rfl
  have h4 : '4'.toNat - '0'.toNat = 4 := rfl
  refine ⟨vs, by rw [hvl, slices3_len], ?_⟩
  rw [hq, add_poly_eq m n '4' _ xforms (by decide) ds hds, h4]
  rw [slices3_len] at hvl
  rw [slices3_len] at hverts
  rw [hverts]
  have e1 : n + 4 - 4 = n := by omega
  have e2 : n + 4 - 3 = n + 1 := by omega
  have e3 : n + 4 - 2 = n + 2 := by omega
  have e4 : n + 4 - 1 = n + 3 := by omega
  simp [e1, e2, e3, e4]

theorem add_poly_tri_core (m : MeshState) (n : ℕ) (xforms : List LDrawXform) :
    ∃ vs : List (ℚ × ℚ × ℚ), vs.length = 3 ∧
      add_poly m n tri_cmd xforms =
        ((⟨m.vertices ++ vs, m.faces ++ [[n, n + 1, n + 2]]⟩, n + 3), none) := by
  obtain ⟨ds, hds⟩ : ∃ ds,
      pyFloatList (((pySplit ('3' :: str " 16 0 0 0 1 0 0 1 1 0")).drop 2).take
        (('3'.toNat - '0'.toNat) * 3)) = some ds := by
    apply Option.isSome_iff_exists.mp
    decide
  have hdl : ds.length = 9 := by
    have h2 := pyFloatList_length hds
    have h3 : ((((pySplit ('3' :: str " 16 0 0 0 1 0 0 1 1 0")).drop 2)).take
        (('3'.toNat - '0'.toNat) * 3)).length = 9 := by decide
    omega
  obtain ⟨vs, hvl, hverts⟩ := add_poly_verts_append (slices3 ds 3) xforms m n
    (slices3_length_three 3 ds (by omega))
  have hq : tri_cmd = '3' :: str " 16 0 0 0 1 0 0 1 1 0" := rfl
  have h3n : '3'.toNat - '0'.toNat = 3 := rfl
  refine ⟨vs, by rw [hvl, slices3_len], ?_⟩
  rw [hq, add_poly_eq m n '3' _ xforms (by decide) ds hds, h3n]
  rw [slices3_len] at hvl
  rw [slices3_len] at hverts
  rw [hverts]
  have e1 : n + 3 - 3 = n := by omega
  have e2 : n + 3 - 2 = n + 1 := by omega
  have e3 : n + 3 - 1 = n + 2 := by omega
  simp [e1, e2, e3]

/-- C7: in geometry-extraction mode, processing the quad command
`4 16 0 0 0 1 0 0 1 1 0 0 1 0` — when the running vertex counter equals the
mesh's current vertex count — appends exactly 4 vertices and exactly one
4-index face referencing those newly added vertices in order; the triangle
command `3 16 0 0 0 1 0 0 1 1 0` likewise appends 3 vertices and one 3-index
face. -/
theorem add_poly_quad_triangle (m : MeshState) (n : ℕ) (xforms : List LDrawXform)
    (h : n = m.vertices.length) :
    (∃ vs : List (ℚ × ℚ × ℚ), vs.length = 4 ∧
      add_poly m n quad_cmd xforms =
        ((⟨m.vertices ++ vs,
           m.faces ++ [[m.vertices.length, m.vertices.length + 1,
             m.vertices.length + 2, m.vertices.length + 3]]⟩,
          m.vertices.length + 4), none)) ∧
    (∃ vs : List (ℚ × ℚ × ℚ), vs.length = 3 ∧
      add_poly m n tri_cmd xforms =
        ((⟨m.vertices ++ vs,
           m.faces ++ [[m.vertices.length, m.vertices.length + 1,
             m.vertices.length + 2]]⟩,
          m.vertices.length + 3), none)) := by
  subst h
  exact ⟨add_poly_quad_core m _ xforms, add_poly_tri_core m _ xforms⟩

/-- C7 witness: the quad and triangle on a fresh mesh with counter 0. -/
theorem add_poly_quad_triangle_witness :
    (∃ vs : List (ℚ × ℚ × ℚ), vs.length = 4 ∧
      add_poly mesh0 0 quad_cmd [id_xform] =
        ((⟨mesh0.vertices ++ vs, mesh0.faces ++ [[0, 1, 2, 3]]⟩, 4), none)) ∧
    (∃ vs : List (ℚ × ℚ × ℚ), vs.length = 3 ∧
      add_poly mesh0 0 tri_cmd [id_xform] =
        ((⟨mesh0.vertices ++ vs, mesh0.faces ++ [[0, 1, 2]]⟩, 3), none)) := by
  have h := add_poly_quad_triangle mesh0 0 [id_xform] rfl
  simpa using h

/-! ## C4: a color declaration without CODE -/

def c4cfg : LDrawFile := mkLDrawFile [str "lib", str "LDConfig.ldr"]
  [str "0 !COLOUR Red VALUE #FF0000", str "0 !COLOUR Blue CODE 1 VALUE #0000FF"]

def c4st : GState :=
  { vfiles := [(str "LDConfig.ldr", c4cfg)], idefs := [], materials := []
    vertidx := 0, doc := ⟨[], [], []⟩, log := [] }

/-- C4 counterexample: a color file whose first declaration lacks CODE and
whose second declaration is well-formed.  `materials[properties["CODE"]]`
raises an uncaught KeyError, the whole `load_colors` run aborts with the
state unchanged, and the well-formed second declaration (code "1") is never
registered — refuting that the table load continues with remaining lines. -/
theorem load_colors_missing_code_cex :
    load_colors c4st = (c4st, some (Err.keyError (str "CODE"))) ∧
    (load_colors c4st).1.materials.lookup (str "1") = none := by
  decide

/-- C4 (amended): a color-declaration line lacking the CODE field raises an
uncaught KeyError that aborts the entire color-table load at that line: no
entry is added for it, the state is returned unchanged, and the remaining
lines are not processed (the result does not depend on them). -/
theorem color_missing_code_amended (bad : PyStr) (rest : List PyStr) (st : GState)
    (hb : strStartsWith bad (str "0 !COLOUR ") = true)
    (hcol : ∃ nm, (parse_color_properties (pySplit (bad.drop 3))).lookup
      (str "COLOUR") = some nm)
    (hcode : (parse_color_properties (pySplit (bad.drop 3))).lookup
      (str "CODE") = none) :
    color_cmds (bad :: rest) st = (st, some (Err.keyError (str "CODE"))) := by
  obtain ⟨nm, hnm⟩ := hcol
  simp [color_cmds, hb, hnm, hcode]

/-- C4 witness: the amended statement applied to the concrete bad line. -/
theorem color_missing_code_amended_witness :
    color_cmds [str "0 !COLOUR Red VALUE #FF0000",
        str "0 !COLOUR Blue CODE 1 VALUE #0000FF"] c4st
      = (c4st, some (Err.keyError (str "CODE"))) :=
  color_missing_code_amended _ _ c4st (by decide) ⟨str "Red", by decide⟩ (by decide)

/-! ## C6: parsing a color declaration -/

def doc0 : DocState := ⟨[], [], []⟩

def c6cfg : LDrawFile := mkLDrawFile [str "lib", str "LDConfig.ldr"]
  [str "0 !COLOUR Red CODE 4 VALUE #FF0000 EDGE #330000"]

def c6st : GState :=
  { vfiles := [(str "LDConfig.ldr", c6cfg)], idefs := [], materials := []
    vertidx := 0, doc := doc0, log := [] }

def c6mat : LDrawMaterial :=
  { properties := [(str "EDGE", str "#330000"), (str "VALUE", str "#FF0000"),
      (str "CODE", str "4"), (str "COLOUR", str "Red")]
    name := str "Red", render_material := none }

/-- C6: parsing `0 !COLOUR Red CODE 4 VALUE #FF0000 EDGE #330000` produces a
table entry keyed by code "4"; creating its render material in a fresh
document yields base color (1, 0, 0), opacity 1.0 and metallic 0.0; and
tokenization pairs keys with values in order, appending the placeholder
"dummy" when an odd number of tokens remains. -/
theorem color_declaration_red_parses :
    (load_colors c6st).2 = none ∧
    (load_colors c6st).1.materials.lookup (str "4") = some c6mat ∧
    (create_render_material doc0 c6mat).2 = none ∧
    (create_render_material doc0 c6mat).1.1.renderMaterials =
      [{ name := str "Red", basecolor := (1, 0, 0, 1), opacity := 1, metallic := 0,
         roughness := 1/5 }] ∧
    (∀ ts : List PyStr, ts.length % 2 = 1 →
      parse_color_properties ts = color_pairs (ts ++ [str "dummy"]) []) := by
  refine ⟨by decide, by decide, by decide, ?_, ?_⟩
  · have h : (create_render_material doc0 c6mat).1.1.renderMaterials =
        [{ name := str "Red"
           basecolor := (((255 : ℕ) : ℚ) / 255, ((0 : ℕ) : ℚ) / 255, ((0 : ℕ) : ℚ) / 255, 1)
           opacity := 1, metallic := 0, roughness := 1/5 }] := rfl
    rw [h]
    norm_num
  · intro ts hodd
    simp [parse_color_properties, hodd]

/-- C6 witness: the odd-token padding applied to a one-token remainder. -/
theorem color_declaration_red_parses_witness :
    parse_color_properties [str "CODE"] = color_pairs [str "CODE", str "dummy"] [] := by
  have h := color_declaration_red_parses.2.2.2.2 [str "CODE"] (by decide)
  exact h

/-! ## C3: the multi-part-document splitter -/

theorem mpd_steps_no_marker (p : List PyStr) :
    ∀ (ls : List PyStr) (s : SplitSt),
      (∀ l ∈ ls, strStartsWith l (str "0 FILE ") = false) →
      ls.foldl (mpd_step p) s = { s with file_data := s.file_data ++ ls } := by
  intro ls
  induction ls with
  | nil => intro s _; simp
  | cons l rest ih =>
    intro s h
    have hl : strStartsWith l (str "0 FILE ") = false := h l (by simp)
    have hrest : ∀ x ∈ rest, strStartsWith x (str "0 FILE ") = false :=
      fun x hx => h x (by simp [hx])
    simp only [List.foldl_cons]
    rw [show mpd_step p s l = { s with file_data := s.file_data ++ [l] } by
      simp [mpd_step, hl]]
    rw [ih _ hrest]
    simp

/-- The identity of a virtual file synthesized for a plain (separator-free,
nonempty) name: bare name, parent-qualified name `virtual\name`, commands. -/
theorem virtual_file_keys (p : List PyStr) (nm : PyStr) (data : List PyStr)
    (hp : pathComponents nm = [nm]) :
    (virtual_file_for p nm data).name = nm ∧
    (virtual_file_for p nm data).pname = str "virtual\\" ++ nm ∧
    (virtual_file_for p nm data).commands = data := by
  have hv : pathComponents (str "virtual") = [str "virtual"] := by decide
  unfold virtual_file_for mkLDrawFile pathJoin
  rw [hp, hv]
  refine ⟨?_, ?_, rfl⟩
  · simp [List.getLastD_concat]
  · simp only [List.dropLast_concat, List.getLastD_concat]
    rfl

/-- C3: a multi-part document with exactly two `0 FILE` markers splits into
exactly two virtual files — each indexed under both its bare and its
parent-qualified (`virtual\`-prefixed) name, each holding its marker line as
its first command followed by the lines up to the next marker or end of
file, with every other index key untouched — and the first marker's name is
the entry point that `load_model` walks. -/
theorem load_model_two_marker_split
    (fuel : ℕ) (model : LDrawFile) (st : GState)
    (pre b1 b2 : List PyStr) (m1 m2 name1 name2 : PyStr)
    (hsuf : strToLower model.suffix = str ".mpd")
    (hcmds : get_commands model = pre ++ m1 :: (b1 ++ m2 :: b2))
    (hpre : ∀ l ∈ pre, strStartsWith l (str "0 FILE ") = false)
    (hb1 : ∀ l ∈ b1, strStartsWith l (str "0 FILE ") = false)
    (hb2 : ∀ l ∈ b2, strStartsWith l (str "0 FILE ") = false)
    (hm1 : strStartsWith m1 (str "0 FILE ") = true)
    (hm1n : m1.drop 7 = name1)
    (hm2 : strStartsWith m2 (str "0 FILE ") = true)
    (hm2n : m2.drop 7 = name2)
    (hp1 : pathComponents name1 = [name1])
    (hp2 : pathComponents name2 = [name2])
    (hr1 : strReplaceChar name1 '/' '\\' = name1)
    (hn1 : name1 ≠ [])
    (hnd : List.Nodup [name1, str "virtual\\" ++ name1, name2, str "virtual\\" ++ name2]) :
    mpd_split model st.vfiles =
      (add_virtual_file model.path name2 (m2 :: b2)
        (add_virtual_file model.path name1 (m1 :: b1) st.vfiles), name1) ∧
    (virtual_file_for model.path name1 (m1 :: b1)).commands = m1 :: b1 ∧
    (virtual_file_for model.path name2 (m2 :: b2)).commands = m2 :: b2 ∧
    (mpd_split model st.vfiles).1.lookup name1 =
      some (virtual_file_for model.path name1 (m1 :: b1)) ∧
    (mpd_split model st.vfiles).1.lookup (str "virtual\\" ++ name1) =
      some (virtual_file_for model.path name1 (m1 :: b1)) ∧
    (mpd_split model st.vfiles).1.lookup name2 =
      some (virtual_file_for model.path name2 (m2 :: b2)) ∧
    (mpd_split model st.vfiles).1.lookup (str "virtual\\" ++ name2) =
      some (virtual_file_for model.path name2 (m2 :: b2)) ∧
    (∀ k : PyStr,
      k ∉ [name1, str "virtual\\" ++ name1, name2, str "virtual\\" ++ name2] →
      (mpd_split model st.vfiles).1.lookup k = st.vfiles.lookup k) ∧
    load_model fuel model st =
      load_assembly fuel (virtual_file_for model.path name1 (m1 :: b1)) [rhino_orient]
        { st with vfiles := (add_virtual_file model.path name2 (m2 :: b2)
            (add_virtual_file model.path name1 (m1 :: b1) st.vfiles)) } := by
  have hk1 := virtual_file_keys model.path name1 (m1 :: b1) hp1
  have hk2 := virtual_file_keys model.path name2 (m2 :: b2) hp2
  -- the splitter fold
  have hfold : (get_commands model).foldl (mpd_step model.path) ⟨[], [], [], st.vfiles⟩ =
      ⟨name2, m2 :: b2, name1,
        add_virtual_file model.path name1 (m1 :: b1) st.vfiles⟩ := by
    rw [hcmds, List.foldl_append, mpd_steps_no_marker model.path pre _ hpre]
    simp only [List.foldl_cons]
    rw [show mpd_step model.path ⟨[], [] ++ pre, [], st.vfiles⟩ m1 =
        ⟨name1, [m1], name1, st.vfiles⟩ by simp [mpd_step, hm1, hm1n]]
    rw [List.foldl_append, mpd_steps_no_marker model.path b1 _ hb1]
    simp only [List.foldl_cons]
    rw [show mpd_step model.path ⟨name1, [m1] ++ b1, name1, st.vfiles⟩ m2 =
        ⟨name2, [m2], name1,
          add_virtual_file model.path name1 (m1 :: b1) st.vfiles⟩ by
      simp [mpd_step, hm2, hm2n, hn1]]
    rw [mpd_steps_no_marker model.path b2 _ hb2]
    simp
  have hsplit : mpd_split model st.vfiles =
      (add_virtual_file model.path name2 (m2 :: b2)
        (add_virtual_file model.path name1 (m1 :: b1) st.vfiles), name1) := by
    unfold mpd_split
    rw [if_pos hsuf, hfold]
  -- disequalities between the four keys
  have hnd' := hnd
  simp only [List.nodup_cons, List.mem_cons, List.not_mem_nil, or_false, not_or,
    List.nodup_nil, and_true, not_false_eq_true] at hnd'
  obtain ⟨⟨hne1, hne2, hne3⟩, ⟨hne4, hne5⟩, hne6⟩ := hnd'
  -- the final dictionary, spelled through dictInsert
  have hvf : (mpd_split model st.vfiles).1 =
      dictInsert (str "virtual\\" ++ name2) (virtual_file_for model.path name2 (m2 :: b2))
        (dictInsert name2 (virtual_file_for model.path name2 (m2 :: b2))
          (dictInsert (str "virtual\\" ++ name1)
            (virtual_file_for model.path name1 (m1 :: b1))
            (dictInsert name1 (virtual_file_for model.path name1 (m1 :: b1))
              st.vfiles))) := by
    rw [hsplit]
    show add_virtual_file model.path name2 (m2 :: b2)
        (add_virtual_file model.path name1 (m1 :: b1) st.vfiles) = _
    simp only [add_virtual_file]
    rw [hk1.1, hk1.2.1, hk2.1, hk2.2.1]
  have hl1 : (mpd_split model st.vfiles).1.lookup name1 =
      some (virtual_file_for model.path name1 (m1 :: b1)) := by
    rw [hvf]
    simp [dictInsert, List.lookup, beq_eq_false_iff_ne.mpr hne1,
      beq_eq_false_iff_ne.mpr hne2, beq_eq_false_iff_ne.mpr hne3]
  have hl2 : (mpd_split model st.vfiles).1.lookup (str "virtual\\" ++ name1) =
      some (virtual_file_for model.path name1 (m1 :: b1)) := by
    rw [hvf]
    simp [dictInsert, List.lookup, beq_eq_false_iff_ne.mpr hne4,
      beq_eq_false_iff_ne.mpr hne5]
  have hl3 : (mpd_split model st.vfiles).1.lookup name2 =
      some (virtual_file_for model.path name2 (m2 :: b2)) := by
    rw [hvf]
    simp [dictInsert, List.lookup, beq_eq_false_iff_ne.mpr hne6]
  have hl4 : (mpd_split model st.vfiles).1.lookup (str "virtual\\" ++ name2) =
      some (virtual_file_for model.path name2 (m2 :: b2)) := by
    rw [hvf]
    simp [dictInsert, List.lookup]
  have hother : ∀ k : PyStr,
      k ∉ [name1, str "virtual\\" ++ name1, name2, str "virtual\\" ++ name2] →
      (mpd_split model st.vfiles).1.lookup k = st.vfiles.lookup k := by
    intro k hk
    simp only [List.mem_cons, List.not_mem_nil, or_false, not_or] at hk
    obtain ⟨hka, hkb, hkc, hkd⟩ := hk
    rw [hvf]
    simp [dictInsert, List.lookup, beq_eq_false_iff_ne.mpr hka,
      beq_eq_false_iff_ne.mpr hkb, beq_eq_false_iff_ne.mpr hkc,
      beq_eq_false_iff_ne.mpr hkd]
  refine ⟨hsplit, hk1.2.2, hk2.2.2, hl1, hl2, hl3, hl4, hother, ?_⟩
  have hget : get_ldraw_file (add_virtual_file model.path name2 (m2 :: b2)
      (add_virtual_file model.path name1 (m1 :: b1) st.vfiles)) name1 =
      .ok (virtual_file_for model.path name1 (m1 :: b1)) := by
    have h := hl1
    rw [hsplit] at h
    simp only [get_ldraw_file, hr1]
    rw [show (add_virtual_file model.path name2 (m2 :: b2)
        (add_virtual_file model.path name1 (m1 :: b1) st.vfiles)).lookup name1 =
        some (virtual_file_for model.path name1 (m1 :: b1)) from h]
  simp only [load_model, hsplit]
  rw [hget]

def c3model : LDrawFile := mkLDrawFile [str "models", str "box.mpd"]
  [str "0 FILE main.ldr", str "1 16 0 0 0 1 0 0 0 1 0 0 0 1 sub.ldr",
   str "0 FILE sub.ldr", str "3 16 0 0 0 1 0 0 1 1 0"]

def c3st : GState :=
  { vfiles := [], idefs := [], materials := [], vertidx := 0
    doc := ⟨[], [], []⟩, log := [] }

/-- C3 witness: a concrete two-marker document splits into its two virtual
files, with the first marker's name as entry point. -/
theorem load_model_two_marker_split_witness :
    mpd_split c3model c3st.vfiles =
      (add_virtual_file c3model.path (str "sub.ldr")
        [str "0 FILE sub.ldr", str "3 16 0 0 0 1 0 0 1 1 0"]
        (add_virtual_file c3model.path (str "main.ldr")
          [str "0 FILE main.ldr", str "1 16 0 0 0 1 0 0 0 1 0 0 0 1 sub.ldr"]
          c3st.vfiles),
       str "main.ldr") ∧
    (mpd_split c3model c3st.vfiles).1.lookup (str "main.ldr") =
      some (virtual_file_for c3model.path (str "main.ldr")
        [str "0 FILE main.ldr", str "1 16 0 0 0 1 0 0 0 1 0 0 0 1 sub.ldr"]) := by
  have h := load_model_two_marker_split 5 c3model c3st
    [] [str "1 16 0 0 0 1 0 0 0 1 0 0 0 1 sub.ldr"] [str "3 16 0 0 0 1 0 0 1 1 0"]
    (str "0 FILE main.ldr") (str "0 FILE sub.ldr") (str "main.ldr") (str "sub.ldr")
    (by decide) rfl (by decide) (by decide) (by decide) (by decide) (by decide)
    (by decide) (by decide) (by decide) (by decide) (by decide) (by decide)
    (by decide)
  exact ⟨h.1, h.2.2.2.1⟩

/-! ## C1: lookup failures during the walk -/

def c1mat : LDrawMaterial :=
  { properties := [(str "COLOUR", str "Black"), (str "VALUE", str "#05131D"),
      (str "CODE", str "16")]
    name := str "Black", render_material := none }

def c1present : LDrawFile := mkLDrawFile [str "parts", str "present.dat"]
  [str "3 16 0 0 0 1 0 0 1 1 0"]

def c1root : LDrawFile := mkLDrawFile [str "models", str "root.ldr"]
  [str "1 16 0 0 0 1 0 0 0 1 0 0 0 1 missing.dat",
   str "1 16 0 0 0 1 0 0 0 1 0 0 0 1 present.dat"]

def c1st : GState :=
  { vfiles := [(str "present.dat", c1present)], idefs := []
    materials := [(str "16", c1mat)], vertidx := 0, doc := ⟨[], [], []⟩, log := [] }

/-- C1 counterexample: in assembly/placement mode, a reference to a part
file absent from the library index raises an uncaught part-not-found error
that aborts the whole load: the sibling reference to a present part that
follows it is never processed and no instance is ever placed — refuting
skip-and-continue in this mode. -/
theorem assembly_lookup_miss_aborts_cex :
    (load_assembly 5 c1root [rhino_orient] c1st).2 =
      some (Err.partNotFound (str "missing.dat")) ∧
    (load_assembly 5 c1root [rhino_orient] c1st).1.doc.objects = [] := by
  decide

def c1broot : LDrawFile := mkLDrawFile [str "models", str "root2.ldr"]
  [str "1 16 0 0 0 1 0 0 0 1 0 0 0 1 sub.ldr",
   str "1 16 0 0 0 1 0 0 0 1 0 0 0 1 present.dat"]

def c1bst : GState :=
  { vfiles := [(str "present.dat", c1present)], idefs := []
    materials := [(str "16", c1mat)], vertidx := 0, doc := ⟨[], [], []⟩, log := [] }

/-- C1 (amended): the skip-and-continue tolerance for a library lookup miss
lives in geometry-extraction mode: there, a reference whose part file is
absent is reported (the error print) and only that reference is skipped, the
walk continuing with the remaining siblings.  In assembly/placement mode a
lookup miss (here of a missing `.ldr` sub-model) is uncaught and aborts the
whole load before any further sibling is processed. -/
theorem lookup_miss_handling_amended :
    (∀ (recur : LDrawFile → MeshState → ℕ → List LDrawXform → List Event →
        (MeshState × ℕ × List Event) × Option Err)
      (vf : List (PyStr × LDrawFile)) (cmd : PyStr) (rest : List PyStr)
      (m : MeshState) (n : ℕ) (xforms : List LDrawXform) (log : List Event)
      (e : Err),
      strStartsWith cmd (str "1") = true →
      get_ldraw_file vf (strIntercalate (str " ") ((pySplit cmd).drop 14)) = .error e →
      geomety_cmds recur vf (cmd :: rest) m n xforms log =
        geomety_cmds recur vf rest m n xforms
          (log ++ [Event.print (str "\tERR: Failed getting part " ++
            strIntercalate (str " ") ((pySplit cmd).drop 14) ++ str ", skipping")])) ∧
    (load_assembly 5 c1broot [rhino_orient] c1bst).2 =
      some (Err.partNotFound (str "sub.ldr")) ∧
    (load_assembly 5 c1broot [rhino_orient] c1bst).1.doc.objects = [] := by
  refine ⟨?_, by decide, by decide⟩
  intro recur vf cmd rest m n xforms log e h1 h2
  simp [geomety_cmds, geomety_cmd, h1, h2]

/-- C1 witness: the extraction-mode skip applied to a concrete reference to
an absent part in an empty library. -/
theorem lookup_miss_handling_amended_witness :
    geomety_cmds (load_geomety_from_file 3 []) []
      [str "1 16 0 0 0 1 0 0 0 1 0 0 0 1 gone.dat"] mesh0 0 [id_xform] [] =
      geomety_cmds (load_geomety_from_file 3 []) [] [] mesh0 0 [id_xform]
        ([] ++ [Event.print (str "\tERR: Failed getting part " ++
          strIntercalate (str " ")
            ((pySplit (str "1 16 0 0 0 1 0 0 0 1 0 0 0 1 gone.dat")).drop 14) ++
          str ", skipping")]) :=
  lookup_miss_handling_amended.1 (load_geomety_from_file 3 []) []
    (str "1 16 0 0 0 1 0 0 0 1 0 0 0 1 gone.dat") [] mesh0 0 [id_xform] []
    (Err.partNotFound (str "gone.dat")) (by decide) rfl

/-! ## C2: at most one definition creation per cleaned name -/

/-- The names in the host's instance-definition table. -/
def defNames (doc : DocState) : List PyStr := doc.idefTable.map Prod.fst

/-- How many `InstanceDefinitions.Add` events for `nm` the log holds. -/
def createCount (log : List Event) (nm : PyStr) : ℕ :=
  log.count (Event.createDef nm)

/-- The definition-creation invariant between two states: new `createDef`
events for a name are covered by that name newly appearing in the host's
definition table — hence at most one creation per name over a run from an
empty log, and none at all for a name already present. -/
def AInv (st st' : GState) : Prop :=
  ∀ nm : PyStr,
    createCount st'.log nm + (if nm ∈ defNames st.doc then 1 else 0)
      ≤ createCount st.log nm + (if nm ∈ defNames st'.doc then 1 else 0)

theorem AInv_refl (st : GState) : AInv st st := fun _ => le_refl _

theorem AInv_trans {s1 s2 s3 : GState} (h12 : AInv s1 s2) (h23 : AInv s2 s3) :
    AInv s1 s3 := by
  intro nm
  have a := h12 nm
  have b := h23 nm
  by_cases h1 : nm ∈ defNames s1.doc <;> by_cases h2 : nm ∈ defNames s2.doc <;>
    by_cases h3 : nm ∈ defNames s3.doc <;> simp [h1, h2, h3] at a b ⊢ <;> omega

/-- A log extension containing no `createDef` events. -/
def NoCreate (ext : List Event) : Prop :=
  ∀ nm : PyStr, ext.count (Event.createDef nm) = 0

theorem NoCreate.nil : NoCreate [] := fun _ => rfl

theorem NoCreate.print (msg : PyStr) : NoCreate [Event.print msg] := by
  intro nm
  simp [List.count_cons]

theorem NoCreate.build (nm2 : PyStr) : NoCreate [Event.buildGeometry nm2] := by
  intro nm
  simp [List.count_cons]

theorem NoCreate.append {e1 e2 : List Event} (h1 : NoCreate e1) (h2 : NoCreate e2) :
    NoCreate (e1 ++ e2) := by
  intro nm
  simp [List.count_append, h1 nm, h2 nm]

/-- States whose log grew only by non-create events and whose definition
table is unchanged satisfy the invariant. -/
theorem AInv_shape {st st' : GState} (ext : List Event)
    (hlog : st'.log = st.log ++ ext) (hext : NoCreate ext)
    (hdoc : st'.doc.idefTable = st.doc.idefTable) : AInv st st' := by
  intro nm
  have h1 : createCount st'.log nm = createCount st.log nm := by
    rw [show createCount st'.log nm = st'.log.count (Event.createDef nm) from rfl, hlog]
    simp [createCount, List.count_append, hext nm]
  have h2 : defNames st'.doc = defNames st.doc := by
    unfold defNames
    rw [hdoc]
  rw [h1, h2]

theorem AInv_of_same {st st' : GState} (hlog : st'.log = st.log)
    (hdoc : st'.doc.idefTable = st.doc.idefTable) : AInv st st' := by
  intro nm
  have h1 : createCount st'.log nm = createCount st.log nm := by
    unfold createCount
    rw [hlog]
  have h2 : defNames st'.doc = defNames st.doc := by
    unfold defNames
    rw [hdoc]
  rw [h1, h2]

/-- Creating one definition for a name not yet present preserves the
invariant. -/
theorem AInv_create {st st' : GState} (ext : List Event) (nm2 : PyStr)
    (mesh : MeshState)
    (hlog : st'.log = st.log ++ ext ++ [Event.createDef nm2]) (hext : NoCreate ext)
    (hnm : nm2 ∉ defNames st.doc)
    (hdoc : st'.doc.idefTable = st.doc.idefTable ++ [(nm2, mesh)]) : AInv st st' := by
  intro nm
  have hcc : createCount st'.log nm =
      createCount st.log nm + ([Event.createDef nm2] : List Event).count (Event.createDef nm) := by
    unfold createCount
    rw [hlog]
    simp [List.count_append, hext nm, createCount]
  have hmem : (nm ∈ defNames st'.doc) ↔ (nm ∈ defNames st.doc ∨ nm = nm2) := by
    unfold defNames
    rw [hdoc, List.map_append, List.mem_append,
      show (List.map Prod.fst [(nm2, mesh)] : List PyStr) = [nm2] from rfl,
      List.mem_singleton]
  by_cases h : nm = nm2
  · subst h
    have hone : ([Event.createDef nm] : List Event).count (Event.createDef nm) = 1 := by
      simp
    rw [hcc, hone, if_neg hnm, if_pos (hmem.mpr (Or.inr rfl))]
  · have hcnt : ([Event.createDef nm2] : List Event).count (Event.createDef nm) = 0 := by
      simp only [List.count_cons, List.count_nil]
      have : (Event.createDef nm2 == Event.createDef nm) = false := by
        apply beq_eq_false_iff_ne.mpr
        intro hc
        exact (Ne.symm h) (by simpa using hc)
      rw [this]
      simp
    rw [hcc, hcnt]
    by_cases h1 : nm ∈ defNames st.doc
    · rw [if_pos h1, if_pos (hmem.mpr (Or.inl h1))]
    · rw [if_neg h1]
      by_cases h2 : nm ∈ defNames st'.doc
      · rw [if_pos h2]
        omega
      · rw [if_neg h2]

/-- `List.lookup` returning `none` means the key is not among the keys. -/
theorem lookup_none_not_mem {β : Type} {l : List (PyStr × β)} {k : PyStr}
    (h : l.lookup k = none) : k ∉ l.map Prod.fst := by
  induction l with
  | nil => simp
  | cons p rest ih =>
    obtain ⟨a, b⟩ := p
    simp only [List.lookup] at h
    by_cases hk : k = a
    · subst hk
      simp at h
    · rw [beq_eq_false_iff_ne.mpr hk] at h
      simp [hk, ih h]

/-- `load_geomety_from_file` (and its command loop) only appends print
events to the log: no `createDef` event is ever produced in extraction
mode. -/
def GeoExt (log log' : List Event) : Prop :=
  ∃ ext, log' = log ++ ext ∧ NoCreate ext

theorem GeoExt.refl0 (log : List Event) : GeoExt log log :=
  ⟨[], by simp, NoCreate.nil⟩

theorem GeoExt.transit {l1 l2 l3 : List Event} (h12 : GeoExt l1 l2)
    (h23 : GeoExt l2 l3) : GeoExt l1 l3 := by
  obtain ⟨e1, rfl, hn1⟩ := h12
  obtain ⟨e2, rfl, hn2⟩ := h23
  exact ⟨e1 ++ e2, by simp, NoCreate.append hn1 hn2⟩

theorem geomety_cmd_log
    (recur : LDrawFile → MeshState → ℕ → List LDrawXform → List Event →
      (MeshState × ℕ × List Event) × Option Err)
    (hrec : ∀ part m n xforms log,
      GeoExt log ((recur part m n xforms log).1).2.2)
    (vf : List (PyStr × LDrawFile)) (cmd : PyStr) (m : MeshState) (n : ℕ)
    (xforms : List LDrawXform) (log : List Event) :
    GeoExt log ((geomety_cmd recur vf cmd m n xforms log).1).2.2 := by
  simp only [geomety_cmd]
  split
  · split
    · exact ⟨[Event.print _], rfl, NoCreate.print _⟩
    · exact hrec _ _ _ _ _
  · split
    · split
      · exact GeoExt.refl0 log
      · exact GeoExt.refl0 log
    · exact GeoExt.refl0 log

theorem geomety_cmds_log
    (recur : LDrawFile → MeshState → ℕ → List LDrawXform → List Event →
      (MeshState × ℕ × List Event) × Option Err)
    (hrec : ∀ part m n xforms log,
      GeoExt log ((recur part m n xforms log).1).2.2)
    (vf : List (PyStr × LDrawFile)) :
    ∀ (cmds : List PyStr) (m : MeshState) (n : ℕ) (xforms : List LDrawXform)
      (log : List Event),
      GeoExt log ((geomety_cmds recur vf cmds m n xforms log).1).2.2 := by
  intro cmds
  induction cmds with
  | nil => intro m n xforms log; exact GeoExt.refl0 log
  | cons cmd rest ih =>
    intro m n xforms log
    have hstep : geomety_cmds recur vf (cmd :: rest) m n xforms log =
        match geomety_cmd recur vf cmd m n xforms log with
        | (r, some e) => (r, some e)
        | ((m', n', log'), none) => geomety_cmds recur vf rest m' n' xforms log' := rfl
    rcases hcmd : geomety_cmd recur vf cmd m n xforms log with ⟨⟨m', n', log'⟩, oe⟩
    have h1 : GeoExt log log' := by
      have h := geomety_cmd_log recur hrec vf cmd m n xforms log
      rw [hcmd] at h
      exact h
    rw [hstep, hcmd]
    cases oe with
    | some e => exact h1
    | none => exact GeoExt.transit h1 (ih m' n' xforms log')

theorem load_geomety_log :
    ∀ (fuel : ℕ) (vf : List (PyStr × LDrawFile)) (part : LDrawFile)
      (m : MeshState) (n : ℕ) (xforms : List LDrawXform) (log : List Event),
      GeoExt log ((load_geomety_from_file fuel vf part m n xforms log).1).2.2 := by
  intro fuel
  induction fuel with
  | zero => intro vf part m n xforms log; exact GeoExt.refl0 log
  | succ f ih =>
    intro vf part m n xforms log
    exact geomety_cmds_log (load_geomety_from_file f vf)
      (fun part m n x log => ih vf part m n x log) vf (get_commands part) m n xforms log

theorem create_render_material_idefs (doc : DocState) (mat : LDrawMaterial) :
    ((create_render_material doc mat).1.1).idefTable = doc.idefTable := by
  unfold create_render_material
  repeat' split
  all_goals rfl

theorem update_idefs_dictionary_state (pn : PyStr) (st : GState) :
    ((update_idefs_dictionary pn st).1).doc = st.doc ∧
    ((update_idefs_dictionary pn st).1).log = st.log := by
  simp only [update_idefs_dictionary]
  split <;> exact ⟨rfl, rfl⟩

theorem placeInstance_state (st : GState) (idef : PyStr) (xf : RTransform)
    (an : PyStr) (rm : Option PyStr) :
    (placeInstance st idef xf an rm).doc.idefTable = st.doc.idefTable ∧
    (placeInstance st idef xf an rm).log = st.log :=
  ⟨rfl, rfl⟩

theorem add_geometry_AInv (fuel : ℕ) (pn : PyStr) (st : GState) :
    AInv st (add_geometry fuel pn st).1 := by
  simp only [add_geometry]
  split
  · exact AInv_shape _ rfl (NoCreate.print _) rfl
  · rename_i hfind
    split
    · exact AInv_of_same rfl rfl
    · rename_i ldraw_file hget
      split
      · rename_i tmesh n' log' e hgeo
        have hg := load_geomety_log fuel st.vfiles ldraw_file mesh0
          ({ st with vertidx := 0 }).vertidx [id_xform]
          (st.log ++ [Event.buildGeometry (clean_name pn)])
        rw [hgeo] at hg
        obtain ⟨ext, hlog', hnc⟩ := hg
        dsimp only at hlog'
        exact AInv_shape ([Event.buildGeometry (clean_name pn)] ++ ext)
          (by dsimp only; rw [hlog']; simp) (NoCreate.append (NoCreate.build _) hnc) rfl
      · rename_i tmesh n' log' hgeo
        have hg := load_geomety_log fuel st.vfiles ldraw_file mesh0
          ({ st with vertidx := 0 }).vertidx [id_xform]
          (st.log ++ [Event.buildGeometry (clean_name pn)])
        rw [hgeo] at hg
        obtain ⟨ext, hlog', hnc⟩ := hg
        dsimp only at hlog'
        split
        · rename_i hmesh
          have hnm : clean_name pn ∉ defNames st.doc := lookup_none_not_mem hfind
          exact AInv_create ([Event.buildGeometry (clean_name pn)] ++ ext)
            (clean_name pn) (host_weld_pipeline tmesh)
            (by dsimp only; rw [hlog']; simp) (NoCreate.append (NoCreate.build _) hnc) hnm rfl
        · exact AInv_shape ([Event.buildGeometry (clean_name pn)] ++ ext)
            (by dsimp only; rw [hlog']; simp) (NoCreate.append (NoCreate.build _) hnc) rfl

theorem assembly_cmd_AInv
    (recur : LDrawFile → List LDrawXform → GState → GState × Option Err)
    (hrec : ∀ part xforms st, AInv st (recur part xforms st).1)
    (fuel : ℕ) (cmd : PyStr) (xforms : List LDrawXform) (st : GState) :
    AInv st (assembly_cmd recur fuel cmd xforms st).1 := by
  simp only [assembly_cmd]
  split
  case isTrue =>
    split
    · exact AInv_refl st
    · rename_i color_code heqc
      split
      · exact AInv_refl st
      · rename_i mat heqm
        split
        · rename_i doc' mat' e hcrm
          refine AInv_of_same rfl ?_
          have h := create_render_material_idefs st.doc mat
          rw [hcrm] at h
          exact h
        · rename_i doc' mat' hcrm
          have hidef : doc'.idefTable = st.doc.idefTable := by
            have h := create_render_material_idefs st.doc mat
            rw [hcrm] at h
            exact h
          have h1 : AInv st
              { st with doc := doc', materials := dictInsert color_code mat' st.materials } :=
            AInv_of_same rfl hidef
          split
          · -- .ldr reference
            split
            · exact h1
            · rename_i ldr_file hldr
              split
              · -- contains polygon commands: build, re-find, place
                split
                · rename_i st' e hadd
                  have h2 := add_geometry_AInv fuel
                    (strIntercalate (str " ") ((pySplit cmd).drop 14))
                    { st with doc := doc', materials := dictInsert color_code mat' st.materials }
                  rw [hadd] at h2
                  exact AInv_trans h1 h2
                · rename_i st' hadd
                  have h2 := add_geometry_AInv fuel
                    (strIntercalate (str " ") ((pySplit cmd).drop 14))
                    { st with doc := doc', materials := dictInsert color_code mat' st.materials }
                  rw [hadd] at h2
                  split
                  · rename_i st2 idef hupd
                    have h3 := update_idefs_dictionary_state
                      (strIntercalate (str " ") ((pySplit cmd).drop 14)) st'
                    rw [hupd] at h3
                    dsimp only at h3
                    have h4 : AInv st' st2 := AInv_of_same h3.2 (by rw [h3.1])
                    exact AInv_trans h1 (AInv_trans h2
                      (AInv_trans h4 (AInv_of_same rfl rfl)))
                  · rename_i st2 hupd
                    have h3 := update_idefs_dictionary_state
                      (strIntercalate (str " ") ((pySplit cmd).drop 14)) st'
                    rw [hupd] at h3
                    dsimp only at h3
                    have h4 : AInv st' st2 := AInv_of_same h3.2 (by rw [h3.1])
                    exact AInv_trans h1 (AInv_trans h2 (AInv_trans h4
                      (AInv_shape _ rfl (NoCreate.print _) rfl)))
              · -- pure sub-assembly: recurse
                exact AInv_trans h1 (hrec _ _ _)
          · -- plain part reference
            split
            · exact AInv_trans h1 (AInv_of_same rfl rfl)
            · split
              · rename_i st' e hadd
                have h2 := add_geometry_AInv fuel
                  (strIntercalate (str " ") ((pySplit cmd).drop 14))
                  { st with doc := doc', materials := dictInsert color_code mat' st.materials }
                rw [hadd] at h2
                exact AInv_trans h1 h2
              · rename_i st' hadd
                have h2 := add_geometry_AInv fuel
                  (strIntercalate (str " ") ((pySplit cmd).drop 14))
                  { st with doc := doc', materials := dictInsert color_code mat' st.materials }
                rw [hadd] at h2
                split
                · rename_i st2 idef hupd
                  have h3 := update_idefs_dictionary_state
                    (strIntercalate (str " ") ((pySplit cmd).drop 14)) st'
                  rw [hupd] at h3
                  dsimp only at h3
                  have h4 : AInv st' st2 := AInv_of_same h3.2 (by rw [h3.1])
                  exact AInv_trans h1 (AInv_trans h2
                    (AInv_trans h4 (AInv_of_same rfl rfl)))
                · rename_i st2 hupd
                  have h3 := update_idefs_dictionary_state
                    (strIntercalate (str " ") ((pySplit cmd).drop 14)) st'
                  rw [hupd] at h3
                  dsimp only at h3
                  have h4 : AInv st' st2 := AInv_of_same h3.2 (by rw [h3.1])
                  exact AInv_trans h1 (AInv_trans h2 (AInv_trans h4
                    (AInv_shape _ rfl (NoCreate.print _) rfl)))
  case isFalse => exact AInv_refl st

theorem assembly_cmds_AInv
    (recur : LDrawFile → List LDrawXform → GState → GState × Option Err)
    (hrec : ∀ part xforms st, AInv st (recur part xforms st).1) (fuel : ℕ) :
    ∀ (cmds : List PyStr) (xforms : List LDrawXform) (st : GState),
      AInv st (assembly_cmds recur fuel cmds xforms st).1 := by
  intro cmds
  induction cmds with
  | nil => intro xforms st; exact AInv_refl st
  | cons cmd rest ih =>
    intro xforms st
    have hstep : assembly_cmds recur fuel (cmd :: rest) xforms st =
        match assembly_cmd recur fuel cmd xforms st with
        | (st', some e) => (st', some e)
        | (st', none) => assembly_cmds recur fuel rest xforms st' := rfl
    rcases hcmd : assembly_cmd recur fuel cmd xforms st with ⟨st', oe⟩
    have h1 : AInv st st' := by
      have h := assembly_cmd_AInv recur hrec fuel cmd xforms st
      rw [hcmd] at h
      exact h
    rw [hstep, hcmd]
    cases oe with
    | some e => exact h1
    | none => exact AInv_trans h1 (ih xforms st')

theorem load_assembly_AInv :
    ∀ (fuel : ℕ) (part : LDrawFile) (xforms : List LDrawXform) (st : GState),
      AInv st (load_assembly fuel part xforms st).1 := by
  intro fuel
  induction fuel with
  | zero => intro part xforms st; exact AInv_refl st
  | succ f ih =>
    intro part xforms st
    exact assembly_cmds_AInv (load_assembly f) (fun p x s => ih p x s) f
      ((get_commands part).filter (fun l => !l.isEmpty)) xforms st

def c2empty : LDrawFile := mkLDrawFile [str "parts", str "empty.dat"] [str "0 comment"]

def c2root : LDrawFile := mkLDrawFile [str "models", str "root.ldr"]
  [str "1 16 0 0 0 1 0 0 0 1 0 0 0 1 empty.dat",
   str "1 16 0 0 0 1 0 0 0 1 0 0 0 1 empty.dat"]

def c2st : GState :=
  { vfiles := [(str "empty.dat", c2empty)], idefs := []
    materials := [(str "16", c1mat)], vertidx := 0, doc := ⟨[], [], []⟩, log := [] }

def c2cached : GState :=
  { vfiles := [], idefs := [], materials := [], vertidx := 7
    doc := ⟨[(str "part", mesh0)], [], []⟩, log := [] }

/-- C2 counterexample: a part file with no polygon content ("empty.dat",
holding only a comment) referenced twice in one load.  Its build produces an
empty mesh, so no definition is ever registered, and the second reference
runs the whole geometry build again: the build runs twice for the cleaned
name "empty" in a single successfully completing load — refuting that the
geometry build runs at most once per cleaned name. -/
theorem load_assembly_rebuilds_empty_part_cex :
    (load_assembly 5 c2root [rhino_orient] c2st).1.log.count
      (Event.buildGeometry (str "empty")) = 2 ∧
    (load_assembly 5 c2root [rhino_orient] c2st).2 = none := by
  decide

/-- C2 (amended): definition creation (`InstanceDefinitions.Add`) runs at
most once per cleaned name during any `load_assembly` run — the invariant
bounds new `createDef` events by the name newly entering the host table, so
from an empty log each name is created at most once, and never for a name
already present in the host — and a requested name already present makes
`add_geometry` a success/no-op (only the skip message is printed, the
document untouched).  The geometry build itself, however, re-runs on later
references to a part whose build produced an empty mesh (see the
counterexample). -/
theorem load_assembly_at_most_one_create (fuel : ℕ) (part : LDrawFile)
    (xforms : List LDrawXform) (st : GState) :
    AInv st (load_assembly fuel part xforms st).1 ∧
    (st.log = [] → ∀ nm : PyStr,
      createCount (load_assembly fuel part xforms st).1.log nm ≤ 1) ∧
    (st.log = [] → ∀ nm : PyStr, nm ∈ defNames st.doc →
      createCount (load_assembly fuel part xforms st).1.log nm = 0) ∧
    (∀ (pn : PyStr) (st2 : GState), idefFind st2.doc (clean_name pn) ≠ none →
      add_geometry fuel pn st2 =
        ({ st2 with vertidx := 0, log := st2.log ++
            [Event.print (str "\tSkipping " ++ pn ++ str ", instance already created")] },
         none)) := by
  have hA := load_assembly_AInv fuel part xforms st
  refine ⟨hA, ?_, ?_, ?_⟩
  · intro hlog nm
    have h := hA nm
    have h0 : createCount st.log nm = 0 := by rw [hlog]; rfl
    rw [h0] at h
    by_cases h1 : nm ∈ defNames st.doc
    · rw [if_pos h1] at h
      by_cases h2 : nm ∈ defNames (load_assembly fuel part xforms st).1.doc
      · rw [if_pos h2] at h
        omega
      · rw [if_neg h2] at h
        omega
    · rw [if_neg h1] at h
      by_cases h2 : nm ∈ defNames (load_assembly fuel part xforms st).1.doc
      · rw [if_pos h2] at h
        omega
      · rw [if_neg h2] at h
        omega
  · intro hlog nm hmem
    have h := hA nm
    have h0 : createCount st.log nm = 0 := by rw [hlog]; rfl
    rw [h0, if_pos hmem] at h
    by_cases h2 : nm ∈ defNames (load_assembly fuel part xforms st).1.doc
    · rw [if_pos h2] at h
      omega
    · rw [if_neg h2] at h
      omega
  · intro pn st2 hfind
    rcases hf : idefFind st2.doc (clean_name pn) with _ | m
    · exact absurd hf hfind
    · simp only [add_geometry]
      rw [hf]

/-- C2 witness: the at-most-once creation bound on a concrete
double-reference run, and the no-op skip for a name already present in the
host document. -/
theorem load_assembly_at_most_one_create_witness :
    createCount (load_assembly 5 c2root [rhino_orient] c2st).1.log (str "empty") ≤ 1 ∧
    add_geometry 5 (str "part.dat") c2cached =
      ({ c2cached with vertidx := 0, log := c2cached.log ++
          [Event.print (str "\tSkipping " ++ str "part.dat" ++
            str ", instance already created")] },
       none) := by
  refine ⟨?_, ?_⟩
  · exact (load_assembly_at_most_one_create 5 c2root [rhino_orient] c2st).2.1 rfl
      (str "empty")
  · exact (load_assembly_at_most_one_create 5 c2root [rhino_orient] c2st).2.2.2
      (str "part.dat") c2cached (by decide)
